import Mathlib

/-!
Verification of the PlasFlowSolver core against its specification.

The Python source is shallowly embedded over `ℚ` (the solver's control flow
performs only field operations and comparisons; `math.sqrt`, which appears
only in final scalar formulas and never in a branch that the claims depend
on, is passed as an explicit function parameter `sqrt`).  The external
Mutation++ property provider is abstracted as a `Mixture` record of pure
functions of the equilibrated `(T, P)` state, matching the provider contract
of the spec.  Python exceptions are modelled with `Except`/`Option`; while
loops that the source does not bound are modelled with an explicit fuel
argument, so that theorems about them are partial-correctness statements
("whenever the loop returns ...").  Division by zero is modelled by total
field division of `ℚ`; every concrete evaluation below avoids zero divisors,
matching the Python semantics at those inputs.
-/

set_option allowUnsafeReducibility true
attribute [semireducible] Rat.inv Rat.mul Rat.add Rat.sub Rat.ofScientific

/- The five `Rat` primitives above are `@[irreducible]` in Batteries, which
blocks `decide` from evaluating concrete rational computations; restoring
their natural reducibility lets the witness and counterexample theorems below
evaluate the embedded algorithms on explicit inputs.  This affects only
elaboration-time unfolding, not the kernel or any axiom. -/

namespace PlasFlow

/-- Error kinds of the Python exceptions raised inside the core:
`valueError` for `ValueError`, `indexError` for list `IndexError`,
`sizeError` for the generic `Exception('wrong input size')`. -/
inductive PfsErr where
  | valueError
  | indexError
  | sizeError
  deriving DecidableEq, Repr

instance {e a : Type} [DecidableEq e] [DecidableEq a] :
    DecidableEq (Except e a) := fun x y =>
  match x, y with
  | .error v, .error w => decidable_of_iff (v = w) (by simp)
  | .ok v, .ok w => decidable_of_iff (v = w) (by simp)
  | .error _, .ok _ => isFalse (by simp)
  | .ok _, .error _ => isFalse (by simp)

/-- Abstraction of the Mutation++ mixture object: each field is the value of
the corresponding query after `equilibrate(T, P)`, as a pure function of
`(T, P)`. -/
structure Mixture where
  density : ℚ → ℚ → ℚ
  viscosity : ℚ → ℚ → ℚ
  cpMass : ℚ → ℚ → ℚ
  thermalCond : ℚ → ℚ → ℚ
  hMass : ℚ → ℚ → ℚ
  sMass : ℚ → ℚ → ℚ

/-- Probe configuration (`Probes` class of `utils/classes.py`), restricted to
the fields the core reads. -/
structure Probes where
  T_w : ℚ
  R_p : ℚ
  R_m : ℚ
  R_j : ℚ
  hf_law : ℕ
  barker_type : ℕ
  stag_var : ℚ

/-- Solver settings (`Settings` class of `utils/classes.py`), restricted to
the fields the core reads.  The integer 0/1 flags of the source are `Bool`. -/
structure Settings where
  N_p : ℕ
  max_hf_iter : ℕ
  hf_conv : ℚ
  use_prev_ite : Bool
  log_warning_hf : Bool
  eta_max : ℚ
  newton_conv : ℚ
  max_newton_iter : ℕ
  jac_diff : ℚ
  min_T_relax : ℚ
  max_T_relax : ℚ

/-- Embedding of `thermodyn.enthalpy(mixture, P, T)`:
`equilibrate(T, P)` followed by `mixtureHMass()`. -/
def enthalpy (mix : Mixture) (P T : ℚ) : ℚ := mix.hMass T P

/-- Embedding of `thermodyn.entropy(mixture, P, T)`:
`equilibrate(T, P)` followed by `mixtureSMass()`. -/
def entropy (mix : Mixture) (P T : ℚ) : ℚ := mix.sMass T P

/-- Embedding of `system_resolution/barker_effect.barker_effect`.  `sqrt`
stands for `math.sqrt`.  The unreachable `case _: exit()` branch is `none`. -/
def barker_effect (sqrt : ℚ → ℚ) (probes : Probes) (mix : Mixture)
    (P_t P T u : ℚ) : Option (ℚ × ℚ) :=
  let rho := mix.density T P
  let mu := mix.viscosity T P
  let Re := rho * u * (2 * probes.R_p) / mu
  let C_p? : Option ℚ :=
    match probes.barker_type with
    | 0 => some 0
    | 1 => some (6 / (Re + 0.455 * sqrt Re))
    | 2 => some (1 + 8 / (Re + 0.5576 * sqrt Re))
    | _ => none
  C_p?.map fun C_p => (P_t + 0.5 * rho * u ^ 2 * C_p, Re)

/-- C3: `barker_effect` returns Reynolds number `Re = ρ·u·(2R_p)/μ` with
`ρ, μ` the provider's density and viscosity at the static `(T, P)` state;
the pressure coefficient is `0` for barker type none (0),
`6/(Re+0.455·√Re)` for Homann (1), `1+8/(Re+0.5576·√Re)` for Carleton (2);
the returned pressure is `P_b = P_t + ½ρu²·C_p`; and for type none the
returned pressure is exactly the input total pressure, independent of Re. -/
theorem barker_effect_formulas (sqrt : ℚ → ℚ) (probes : Probes)
    (mix : Mixture) (P_t P T u : ℚ) :
    (let rho := mix.density T P
     let mu := mix.viscosity T P
     let Re := rho * u * (2 * probes.R_p) / mu
     (probes.barker_type = 0 →
        barker_effect sqrt probes mix P_t P T u = some (P_t, Re)) ∧
     (probes.barker_type = 1 →
        barker_effect sqrt probes mix P_t P T u =
          some (P_t + 0.5 * rho * u ^ 2 * (6 / (Re + 0.455 * sqrt Re)), Re)) ∧
     (probes.barker_type = 2 →
        barker_effect sqrt probes mix P_t P T u =
          some (P_t + 0.5 * rho * u ^ 2 * (1 + 8 / (Re + 0.5576 * sqrt Re)), Re))) := by
  refine ⟨fun h0 => ?_, fun h1 => ?_, fun h2 => ?_⟩
  · simp only [barker_effect, h0, Option.map_some']
    ring_nf
  · simp only [barker_effect, h1, Option.map_some']
  · simp only [barker_effect, h2, Option.map_some']

/-! ## Under-relaxation (`system_resolution/newton_operations.under_relaxation`) -/

/-- State of the four relaxed variables `(T_star, u_star, T_t_star, P_t_star)`
during `under_relaxation`. -/
structure RelaxState where
  T_star : ℚ
  u_star : ℚ
  T_t_star : ℚ
  P_t_star : ℚ
  deriving DecidableEq, Repr

/-- Condition of the first `while` loop of `under_relaxation`
("the new values are too low"). -/
def relaxLowCond (stg : Settings) (prb : Probes) (s : RelaxState) : Prop :=
  s.T_star < stg.min_T_relax ∨ s.u_star < 0 ∨ s.T_t_star < stg.min_T_relax ∨
    s.P_t_star < 0 ∨ s.T_t_star < prb.T_w

instance (stg : Settings) (prb : Probes) (s : RelaxState) :
    Decidable (relaxLowCond stg prb s) :=
  inferInstanceAs (Decidable (_ ∨ _ ∨ _ ∨ _ ∨ _))

/-- Condition of the second `while` loop of `under_relaxation`
("the new values are too high"). -/
def relaxHighCond (stg : Settings) (s : RelaxState) : Prop :=
  stg.max_T_relax < s.T_star ∨ stg.max_T_relax < s.T_t_star

instance (stg : Settings) (s : RelaxState) : Decidable (relaxHighCond stg s) :=
  inferInstanceAs (Decidable (_ ∨ _))

/-- Loop-body update of `under_relaxation`: recompute the starred variables
from the pre-step state `(T, u, T_t, P_t)`, the Newton increment `d_vars` and
the current relaxation factor.  `P_t_star` is updated only when the Barker
correction is active, otherwise it keeps its current value. -/
def relaxUpdate (prb : Probes) (T u T_t P_t : ℚ) (d_vars : List ℚ)
    (relax : ℚ) (s : RelaxState) : RelaxState :=
  { T_star := T + d_vars.getD 0 0 * relax
    u_star := u + d_vars.getD 1 0 * relax
    T_t_star := T_t + d_vars.getD 2 0 * relax
    P_t_star := if prb.barker_type ≠ 0 then P_t + d_vars.getD 3 0 * relax
                else s.P_t_star }

/-- First `while` loop of `under_relaxation`, with explicit fuel: the source
loop is unbounded and `none` models non-termination within the given fuel. -/
def relaxLow (stg : Settings) (prb : Probes) (T u T_t P_t : ℚ)
    (d_vars : List ℚ) : ℕ → RelaxState → ℚ → Option (RelaxState × ℚ)
  | 0, s, relax => if relaxLowCond stg prb s then none else some (s, relax)
  | fuel + 1, s, relax =>
      if relaxLowCond stg prb s then
        relaxLow stg prb T u T_t P_t d_vars fuel
          (relaxUpdate prb T u T_t P_t d_vars (relax / 2) s) (relax / 2)
      else some (s, relax)

/-- Second `while` loop of `under_relaxation`, with explicit fuel. -/
def relaxHigh (stg : Settings) (prb : Probes) (T u T_t P_t : ℚ)
    (d_vars : List ℚ) : ℕ → RelaxState → ℚ → Option (RelaxState × ℚ)
  | 0, s, relax => if relaxHighCond stg s then none else some (s, relax)
  | fuel + 1, s, relax =>
      if relaxHighCond stg s then
        relaxHigh stg prb T u T_t P_t d_vars fuel
          (relaxUpdate prb T u T_t P_t d_vars (relax / 2) s) (relax / 2)
      else some (s, relax)

/-- Embedding of `newton_operations.under_relaxation`: starting from
`relax = 1`, run the "too low" loop, then the "too high" loop. -/
def under_relaxation (fuel : ℕ) (stg : Settings) (prb : Probes)
    (T_star u_star T_t_star P_t_star T u T_t P_t : ℚ)
    (d_vars : List ℚ) : Option RelaxState :=
  match relaxLow stg prb T u T_t P_t d_vars fuel
      ⟨T_star, u_star, T_t_star, P_t_star⟩ 1 with
  | none => none
  | some (s1, relax1) =>
    match relaxHigh stg prb T u T_t P_t d_vars fuel s1 relax1 with
    | none => none
    | some (s2, _) => some s2

/-- Interpolation bound: if a lower bound holds at relaxation factors `0`
(the pre-step value) and `r`, it holds at any factor between them. -/
lemma interpLower (m x v r r' : ℚ) (hx : m ≤ x) (hr : m ≤ x + v * r)
    (h0 : 0 ≤ r') (hrr : r' ≤ r) : m ≤ x + v * r' := by
  rcases le_or_lt 0 v with hv | hv
  · nlinarith [mul_nonneg hv h0]
  · have : v * r ≤ v * r' := mul_le_mul_of_nonpos_left hrr (le_of_lt hv)
    linarith

/-- The relaxed state as a function of the relaxation factor, matching the
expressions recomputed by the loop bodies of `under_relaxation`. -/
def relaxStateAt (prb : Probes) (T u T_t P_t : ℚ) (d_vars : List ℚ)
    (relax : ℚ) : RelaxState :=
  { T_star := T + d_vars.getD 0 0 * relax
    u_star := u + d_vars.getD 1 0 * relax
    T_t_star := T_t + d_vars.getD 2 0 * relax
    P_t_star := if prb.barker_type ≠ 0 then P_t + d_vars.getD 3 0 * relax
                else P_t }

lemma relaxUpdate_stateAt (prb : Probes) (T u T_t P_t : ℚ) (d_vars : List ℚ)
    (r r' : ℚ) :
    relaxUpdate prb T u T_t P_t d_vars r' (relaxStateAt prb T u T_t P_t d_vars r) =
      relaxStateAt prb T u T_t P_t d_vars r' := by
  unfold relaxUpdate relaxStateAt
  by_cases h : prb.barker_type ≠ 0 <;> simp [h]

lemma relaxLow_spec (stg : Settings) (prb : Probes) (T u T_t P_t : ℚ)
    (d_vars : List ℚ) :
    ∀ fuel (r : ℚ) (s' : RelaxState) (r' : ℚ), 0 ≤ r →
      relaxLow stg prb T u T_t P_t d_vars fuel
        (relaxStateAt prb T u T_t P_t d_vars r) r = some (s', r') →
      s' = relaxStateAt prb T u T_t P_t d_vars r' ∧ 0 ≤ r' ∧
        ¬ relaxLowCond stg prb s' := by
  intro fuel
  induction fuel with
  | zero =>
    intro r s' r' hr h
    rw [relaxLow] at h
    split at h
    · exact absurd h (by simp)
    · rename_i hc
      simp only [Option.some.injEq, Prod.mk.injEq] at h
      obtain ⟨hs, hr'⟩ := h
      subst hs; subst hr'
      exact ⟨rfl, hr, hc⟩
  | succ fuel ih =>
    intro r s' r' hr h
    rw [relaxLow] at h
    split at h
    · simp only [relaxUpdate_stateAt] at h
      exact ih (r / 2) s' r' (by linarith) h
    · rename_i hc
      simp only [Option.some.injEq, Prod.mk.injEq] at h
      obtain ⟨hs, hr'⟩ := h
      subst hs; subst hr'
      exact ⟨rfl, hr, hc⟩

lemma relaxLowCond_not_iff (stg : Settings) (prb : Probes) (s : RelaxState) :
    ¬ relaxLowCond stg prb s ↔
      stg.min_T_relax ≤ s.T_star ∧ 0 ≤ s.u_star ∧
        stg.min_T_relax ≤ s.T_t_star ∧ 0 ≤ s.P_t_star ∧
        prb.T_w ≤ s.T_t_star := by
  unfold relaxLowCond
  push_neg
  tauto

lemma relaxHigh_spec (stg : Settings) (prb : Probes) (T u T_t P_t : ℚ)
    (d_vars : List ℚ)
    (hbT : stg.min_T_relax ≤ T) (hbu : 0 ≤ u)
    (hbTt : stg.min_T_relax ≤ T_t) (hbTw : prb.T_w ≤ T_t) (hbPt : 0 ≤ P_t) :
    ∀ fuel (r : ℚ) (s' : RelaxState) (r' : ℚ), 0 ≤ r →
      ¬ relaxLowCond stg prb (relaxStateAt prb T u T_t P_t d_vars r) →
      relaxHigh stg prb T u T_t P_t d_vars fuel
        (relaxStateAt prb T u T_t P_t d_vars r) r = some (s', r') →
      ¬ relaxLowCond stg prb s' ∧ ¬ relaxHighCond stg s' := by
  intro fuel
  induction fuel with
  | zero =>
    intro r s' r' hr hlow h
    rw [relaxHigh] at h
    split at h
    · exact absurd h (by simp)
    · rename_i hc
      simp only [Option.some.injEq, Prod.mk.injEq] at h
      obtain ⟨hs, _⟩ := h
      exact ⟨hs ▸ hlow, hs ▸ hc⟩
  | succ fuel ih =>
    intro r s' r' hr hlow h
    rw [relaxHigh] at h
    split at h
    · simp only [relaxUpdate_stateAt] at h
      have hlow2 : ¬ relaxLowCond stg prb
          (relaxStateAt prb T u T_t P_t d_vars (r / 2)) := by
        rw [relaxLowCond_not_iff] at hlow ⊢
        obtain ⟨h1, h2, h3, h4, h5⟩ := hlow
        simp only [relaxStateAt] at h1 h2 h3 h4 h5 ⊢
        have hhalf0 : (0:ℚ) ≤ r / 2 := by linarith
        have hhalfr : r / 2 ≤ r := by linarith
        refine ⟨interpLower _ _ _ r _ hbT h1 hhalf0 hhalfr,
                ?_, interpLower _ _ _ r _ hbTt h3 hhalf0 hhalfr, ?_,
                interpLower _ _ _ r _ hbTw h5 hhalf0 hhalfr⟩
        · exact interpLower 0 u (d_vars.getD 1 0) r (r / 2) hbu h2 hhalf0 hhalfr
        · by_cases hb : prb.barker_type ≠ 0
          · rw [if_pos hb] at h4 ⊢
            exact interpLower 0 P_t (d_vars.getD 3 0) r (r / 2) hbPt h4 hhalf0 hhalfr
          · rw [if_neg hb] at h4 ⊢
            exact hbPt
      exact ih (r / 2) s' r' (by linarith) hlow2 h
    · rename_i hc
      simp only [Option.some.injEq, Prod.mk.injEq] at h
      obtain ⟨hs, _⟩ := h
      exact ⟨hs ▸ hlow, hs ▸ hc⟩

/-- Exit condition of the second loop: whatever the starting state and
relaxation factor, whenever `relaxHigh` returns, the returned state
satisfies the negation of the loop condition (both upper bounds). -/
lemma relaxHigh_exit (stg : Settings) (prb : Probes) (T u T_t P_t : ℚ)
    (d_vars : List ℚ) :
    ∀ fuel (s : RelaxState) (r : ℚ) (s' : RelaxState) (r' : ℚ),
      relaxHigh stg prb T u T_t P_t d_vars fuel s r = some (s', r') →
      ¬ relaxHighCond stg s' := by
  intro fuel
  induction fuel with
  | zero =>
    intro s r s' r' h
    rw [relaxHigh] at h
    split at h
    · exact absurd h (by simp)
    · rename_i hc
      simp only [Option.some.injEq, Prod.mk.injEq] at h
      exact h.1 ▸ hc
  | succ fuel ih =>
    intro s r s' r' h
    rw [relaxHigh] at h
    split at h
    · exact ih _ _ s' r' h
    · rename_i hc
      simp only [Option.some.injEq, Prod.mk.injEq] at h
      exact h.1 ▸ hc

/-- C2 (amended): `under_relaxation`, called as the Newton loop calls it
(the starred inputs are the full-step values `T + d_vars[0]`, …, and
`P_t_star = P_t` when the Barker correction is inactive), returns — whenever
it returns — a state with `T_star ≤ max_T_relax` and
`T_t_star ≤ max_T_relax` unconditionally, for every increment `d_vars`
(first conjunct: the upper bounds are the second loop's exit condition);
and additionally `T_star ≥ min_T_relax`, `u_star ≥ 0`,
`T_t_star ≥ max(min_T_relax, T_w)` and `P_t_star ≥ 0`, provided the
pre-step state itself satisfies those lower bounds (second conjunct).
Without the pre-step proviso the lower bounds can be violated (see the
counterexample), because the second halving loop only rechecks the upper
bounds. -/
theorem under_relaxation_bounds (fuel : ℕ) (stg : Settings) (prb : Probes)
    (T u T_t P_t : ℚ) (d_vars : List ℚ) (s' : RelaxState)
    (h : under_relaxation fuel stg prb
      (T + d_vars.getD 0 0) (u + d_vars.getD 1 0) (T_t + d_vars.getD 2 0)
      (if prb.barker_type ≠ 0 then P_t + d_vars.getD 3 0 else P_t)
      T u T_t P_t d_vars = some s') :
    (s'.T_star ≤ stg.max_T_relax ∧ s'.T_t_star ≤ stg.max_T_relax) ∧
    (stg.min_T_relax ≤ T → 0 ≤ u → stg.min_T_relax ≤ T_t →
      prb.T_w ≤ T_t → 0 ≤ P_t →
      stg.min_T_relax ≤ s'.T_star ∧ 0 ≤ s'.u_star ∧
        stg.min_T_relax ≤ s'.T_t_star ∧ prb.T_w ≤ s'.T_t_star ∧
        0 ≤ s'.P_t_star) := by
  have hs0 : (⟨T + d_vars.getD 0 0, u + d_vars.getD 1 0,
      T_t + d_vars.getD 2 0,
      if prb.barker_type ≠ 0 then P_t + d_vars.getD 3 0 else P_t⟩ :
        RelaxState) =
      relaxStateAt prb T u T_t P_t d_vars 1 := by
    unfold relaxStateAt
    by_cases hb : prb.barker_type ≠ 0 <;> simp [hb]
  unfold under_relaxation at h
  rw [hs0] at h
  rcases hlow : relaxLow stg prb T u T_t P_t d_vars fuel
      (relaxStateAt prb T u T_t P_t d_vars 1) 1 with _ | ⟨s1, r1⟩
  · rw [hlow] at h
    exact absurd h (by simp)
  · rw [hlow] at h
    obtain ⟨hs1, hr1, hlow1⟩ :=
      relaxLow_spec stg prb T u T_t P_t d_vars fuel 1 s1 r1 (by norm_num) hlow
    subst hs1
    dsimp only at h
    rcases hhigh : relaxHigh stg prb T u T_t P_t d_vars fuel
        (relaxStateAt prb T u T_t P_t d_vars r1) r1 with _ | ⟨s2, r2⟩
    · rw [hhigh] at h
      exact absurd h (by simp)
    · rw [hhigh] at h
      simp only [Option.some.injEq] at h
      subst h
      have hup := relaxHigh_exit stg prb T u T_t P_t d_vars fuel
        (relaxStateAt prb T u T_t P_t d_vars r1) r1 s2 r2 hhigh
      unfold relaxHighCond at hup
      push_neg at hup
      refine ⟨⟨hup.1, hup.2⟩, ?_⟩
      intro hbT hbu hbTt hbTw hbPt
      obtain ⟨hlow2, _⟩ :=
        relaxHigh_spec stg prb T u T_t P_t d_vars hbT hbu hbTt hbTw hbPt
          fuel r1 s2 r2 hr1 hlow1 hhigh
      rw [relaxLowCond_not_iff] at hlow2
      exact ⟨hlow2.1, hlow2.2.1, hlow2.2.2.1, hlow2.2.2.2.2,
        hlow2.2.2.2.1⟩

/-- C2 witness: a concrete run of `under_relaxation` at which the amended
theorem's hypotheses hold, with the pre-step proviso of the second conjunct
also discharged concretely. -/
theorem under_relaxation_bounds_witness :
    ((⟨51, 6, 51, 11⟩ : RelaxState).T_star ≤ 100 ∧
      (⟨51, 6, 51, 11⟩ : RelaxState).T_t_star ≤ 100) ∧
    ((1:ℚ) ≤ (⟨51, 6, 51, 11⟩ : RelaxState).T_star ∧
      0 ≤ (⟨51, 6, 51, 11⟩ : RelaxState).u_star ∧
      (1:ℚ) ≤ (⟨51, 6, 51, 11⟩ : RelaxState).T_t_star ∧
      (2:ℚ) ≤ (⟨51, 6, 51, 11⟩ : RelaxState).T_t_star ∧
      0 ≤ (⟨51, 6, 51, 11⟩ : RelaxState).P_t_star) :=
  let H := under_relaxation_bounds 5
    ⟨5, 10, 0, false, false, 6, 1/1000, 10, 1/100, 1, 100⟩
    ⟨2, 1, 1, 1, 0, 1, 1⟩ 50 5 50 10 [1, 1, 1, 1] ⟨51, 6, 51, 11⟩
    (by decide)
  ⟨H.1, H.2 (by norm_num) (by norm_num) (by norm_num) (by norm_num)
    (by norm_num)⟩

/-- C2 counterexample: the claim as stated is false.  With
`min_T_relax = 0`, `max_T_relax = 10`, `T_w = 0` and the adversarial
increment `d_vars = [1000, 0, 0, 0]` from the pre-step state
`(T, u, T_t, P_t) = (-100, 1, 5, 1)`, `under_relaxation` returns the state
`(−75/2, 1, 5, 1)`, whose static temperature `−75/2` violates
`min_T_relax = 0`: the second halving loop re-breaks the lower bound. -/
theorem under_relaxation_lower_bound_cex :
    under_relaxation 30 ⟨5, 10, 0, false, false, 6, 1/1000, 10, 1/100, 0, 10⟩
        ⟨0, 1, 1, 1, 0, 1, 1⟩ 900 1 5 1 (-100) 1 5 1 [1000, 0, 0, 0] =
      some ⟨-75/2, 1, 5, 1⟩ ∧
      ((-75/2 : ℚ) <
        (⟨5, 10, 0, false, false, 6, 1/1000, 10, 1/100, 0, 10⟩ :
          Settings).min_T_relax) := by
  constructor
  · decide
  · norm_num

/-! ## Newton-Raphson convergence metric (`main.py`, `newton_operations.py`) -/

/-- Helper: for barker type 0 (none), `barker_effect` returns exactly the
input total pressure. -/
lemma barker_effect_zero (sqrt : ℚ → ℚ) (prb : Probes) (mix : Mixture)
    (P_t P T u : ℚ) (h0 : prb.barker_type = 0) :
    barker_effect sqrt prb mix P_t P T u =
      some (P_t, mix.density T P * u * (2 * prb.R_p) / mix.viscosity T P) := by
  simp only [barker_effect, h0, Option.map_some']
  norm_num

/-- Residual vector assembled by `main.py` lines 246-250 (always four
components; only the first `n_eq` feed the main-loop metric). -/
def newtonResiduals (q q_target h h_t s s_t u P_b P_stag : ℚ) : List ℚ :=
  [-(q - q_target), -(h_t - (h + 0.5 * u ^ 2)), -(s_t - s), -(P_b - P_stag)]

/-- Squared residual accumulation `cnv = Σ_{i<n_eq} res[i]²` of `main.py`
lines 252-254. -/
def cnv_sq (n_eq : ℕ) (res : List ℚ) : ℚ :=
  ((res.take n_eq).map (fun t => t ^ 2)).sum

/-- Outcome of the first Newton iteration's convergence handling. -/
structure Iter1Result where
  cnv_ref : ℚ
  cnv : ℚ
  has_converged : Bool
  deriving DecidableEq, Repr

/-- Embedding of the first Newton iteration's convergence logic
(`main.py` lines 251-258 with the convergence check of lines 280-282):
`cnv_ref := sqrt(Σ res²)`, `cnv := 1`, and the loop reports CONVERGED iff
`cnv < newton_conv`. -/
def newtonIter1 (sqrt : ℚ → ℚ) (n_eq : ℕ) (res : List ℚ)
    (newton_conv : ℚ) : Iter1Result :=
  let cnv_ref := sqrt (cnv_sq n_eq res)
  let cnv : ℚ := 1
  { cnv_ref := cnv_ref, cnv := cnv,
    has_converged := decide (cnv < newton_conv) }

/-- C1 (amended): at iteration 1 the normalized metric is the constant 1,
whatever the residuals, and the loop reports CONVERGED at iteration 1 iff
`newton_conv > 1`; in particular a case seeded exactly at the true root does
not report CONVERGED at iteration 1 for any tolerance `≤ 1`. -/
theorem newtonIter1_cnv_one (sqrt : ℚ → ℚ) (n_eq : ℕ) (res : List ℚ)
    (newton_conv : ℚ) :
    (newtonIter1 sqrt n_eq res newton_conv).cnv = 1 ∧
      ((newtonIter1 sqrt n_eq res newton_conv).has_converged = true ↔
        1 < newton_conv) := by
  refine ⟨rfl, ?_⟩
  simp [newtonIter1]

/-- C1 counterexample: with all four residual components zero (the initial
guess is exactly the true root) and the representative tolerance
`newton_conv = 10⁻³`, iteration 1 reports `cnv = 1` but does NOT report
CONVERGED, contradicting the claim.  (`sqrt` is instantiated with a function
sending 0 to 0, as `math.sqrt` does.) -/
theorem newton_root_seed_cex :
    (newtonIter1 (fun q => q) 3 [0, 0, 0, 0] (1/1000)).cnv = 1 ∧
      (newtonIter1 (fun q => q) 3 [0, 0, 0, 0] (1/1000)).has_converged =
        false := by
  constructor
  · rfl
  · decide

/-- Result record of `dynamic_jacobian_diff` (its full returned tuple). -/
structure DynJacResult where
  cnv : ℚ
  res : List ℚ
  jac_diff : ℚ
  T : ℚ
  u : ℚ
  T_t : ℚ
  P_t : ℚ
  h : ℚ
  h_t : ℚ
  s : ℚ
  s_t : ℚ
  P_b : ℚ
  deriving DecidableEq, Repr

/-- Embedding of `newton_operations.dynamic_jacobian_diff`.  `hf` abstracts
`heat_flux.heat_flux` as a total function of `(P_t, T_t, u)` (the claims
settled here do not depend on the heat-flux value), and `sT, sU, sTt, sPt`
are the four values drawn by `random.choice([1,-1])`, made explicit inputs
per the spec's injectable-randomness note.  The constants are the `DynJac`
block of `ProgramConstants`. -/
def dynamic_jacobian_diff (sqrt : ℚ → ℚ) (hf : ℚ → ℚ → ℚ → ℚ)
    (mix : Mixture) (sT sU sTt sPt : ℚ) (cnv cnv_old cnv_ref : ℚ)
    (res : List ℚ) (stg : Settings) (prb : Probes)
    (T u T_t P_t P q_target P_stag h h_t s s_t P_b : ℚ) :
    Option DynJacResult :=
  if |cnv_old - cnv| / cnv_old < 0.01 ∧ stg.jac_diff < 1/10 then
    let jac_diff' := stg.jac_diff * 4
    let u' := u + u * 0.05 * sU
    let P_t' := if prb.barker_type ≠ 0 then P_t + P_t * 0.05 * sPt else P_t
    let T' := if T + T * 0.05 * sT < stg.min_T_relax then stg.min_T_relax
              else T + T * 0.05 * sT
    let T_t' := if stg.max_T_relax < T_t + T_t * 0.05 * sTt then
                  stg.max_T_relax - 5000
                else T_t + T_t * 0.05 * sTt
    let q' := hf P_t' T_t' u'
    let h' := enthalpy mix P T'
    let h_t' := enthalpy mix P_t' T_t'
    let s' := entropy mix P T'
    let s_t' := entropy mix P_t' T_t'
    (barker_effect sqrt prb mix P_t' P T' u').map fun Pb_Re =>
      let res' := newtonResiduals q' q_target h' h_t' s' s_t' u' Pb_Re.1 P_stag
      { cnv := sqrt ((res'.map (fun t => t ^ 2)).sum) / cnv_ref, res := res',
        jac_diff := jac_diff', T := T', u := u', T_t := T_t', P_t := P_t',
        h := h', h_t := h_t', s := s', s_t := s_t', P_b := Pb_Re.1 }
  else
    some { cnv := cnv, res := res, jac_diff := stg.jac_diff, T := T, u := u,
           T_t := T_t, P_t := P_t, h := h, h_t := h_t, s := s, s_t := s_t,
           P_b := P_b }

/-- Embedding of one Newton-loop convergence evaluation at iteration ≥ 2
(`main.py` lines 242-272): Barker pressure, residual assembly, normalized
metric `cnv = sqrt(Σ_{i<n_eq} res[i]²)/cnv_ref`, then the
adaptive-stabilization call, whose output replaces `cnv` and `res`. -/
def newtonIterGe2 (sqrt : ℚ → ℚ) (hf : ℚ → ℚ → ℚ → ℚ) (mix : Mixture)
    (sT sU sTt sPt : ℚ) (n_eq : ℕ) (stg : Settings) (prb : Probes)
    (T u T_t P_t P q_target P_stag cnv_old cnv_ref q h h_t s s_t : ℚ) :
    Option DynJacResult :=
  (barker_effect sqrt prb mix P_t P T u).bind fun Pb_Re =>
    let res := newtonResiduals q q_target h h_t s s_t u Pb_Re.1 P_stag
    let cnv := sqrt (cnv_sq n_eq res) / cnv_ref
    dynamic_jacobian_diff sqrt hf mix sT sU sTt sPt cnv cnv_old cnv_ref res
      stg prb T u T_t P_t P q_target P_stag h h_t s s_t Pb_Re.1

/-- Helper: whenever `dynamic_jacobian_diff` returns, either it left the
metric and residuals untouched (stall branch not taken), or the returned
metric is `sqrt(Σ res'[i]²)/cnv_ref` over the full recomputed 4-component
residual list, whose 4th component is `-(P_b' - P_stag)` with `P_b' = P_t`
when the Barker correction is off. -/
lemma dynamic_jacobian_diff_spec (sqrt : ℚ → ℚ) (hf : ℚ → ℚ → ℚ → ℚ)
    (mix : Mixture) (sT sU sTt sPt : ℚ) (cnv cnv_old cnv_ref : ℚ)
    (res : List ℚ) (stg : Settings) (prb : Probes)
    (T u T_t P_t P q_target P_stag h h_t s s_t P_b : ℚ) (r : DynJacResult)
    (hd : dynamic_jacobian_diff sqrt hf mix sT sU sTt sPt cnv cnv_old cnv_ref
      res stg prb T u T_t P_t P q_target P_stag h h_t s s_t P_b = some r) :
    (r.cnv = cnv ∧ r.res = res) ∨
      (r.cnv = sqrt ((r.res.map (fun t => t ^ 2)).sum) / cnv_ref ∧
        ∃ a b c, r.res = [a, b, c, -(r.P_b - P_stag)] ∧
          (prb.barker_type = 0 → r.P_b = P_t)) := by
  unfold dynamic_jacobian_diff at hd
  split at hd
  · rw [Option.map_eq_some'] at hd
    obtain ⟨⟨Pb, Re⟩, hbk, hr⟩ := hd
    subst hr
    right
    refine ⟨rfl, _, _, _, rfl, fun h0 => ?_⟩
    rw [barker_effect_zero sqrt prb mix _ P _ _ h0] at hbk
    simp only [h0] at hbk
    simp only [Option.some.injEq, Prod.mk.injEq] at hbk
    simp [h0, ← hbk.1]
  · left
    simp only [Option.some.injEq] at hd
    subst hd
    exact ⟨rfl, rfl⟩

/-- C6: at every Newton iteration after the first, the convergence metric
produced by the iteration (including when it is recomputed inside the
adaptive-stabilization step) equals `sqrt(Σ_{i<n_eq} res[i]²)/cnv_ref` over
the residual vector the iteration ends with, where
`n_eq = 3` without the Barker correction and `4` with it.  For the
barker-off case this uses the invariant, established by the retrieve stage
(`retrieve_data_*.py`) and preserved by the loop, that `P_t` is locked to
`P_stag`, which makes the 4th residual component `-(P_b - P_stag)` vanish
even though the stabilization step sums over all `len(res) = 4`
components. -/
theorem newton_cnv_normalized (sqrt : ℚ → ℚ) (hf : ℚ → ℚ → ℚ → ℚ)
    (mix : Mixture) (sT sU sTt sPt : ℚ) (n_eq : ℕ) (stg : Settings)
    (prb : Probes)
    (T u T_t P_t P q_target P_stag cnv_old cnv_ref q h h_t s s_t : ℚ)
    (r : DynJacResult)
    (hneq : n_eq = if prb.barker_type = 0 then 3 else 4)
    (hlock : prb.barker_type = 0 → P_t = P_stag)
    (hstep : newtonIterGe2 sqrt hf mix sT sU sTt sPt n_eq stg prb
      T u T_t P_t P q_target P_stag cnv_old cnv_ref q h h_t s s_t = some r) :
    r.cnv = sqrt (cnv_sq n_eq r.res) / cnv_ref := by
  unfold newtonIterGe2 at hstep
  rw [Option.bind_eq_some] at hstep
  obtain ⟨⟨P_b0, Re0⟩, hbk0, hdyn⟩ := hstep
  rcases dynamic_jacobian_diff_spec sqrt hf mix sT sU sTt sPt _ cnv_old
      cnv_ref _ stg prb T u T_t P_t P q_target P_stag h h_t s s_t P_b0 r hdyn
    with ⟨hc, hres⟩ | ⟨hc, a, b, c, hres, hPb⟩
  · rw [hc, hres]
  · rw [hc, hres]
    by_cases hb0 : prb.barker_type = 0
    · have hn3 : n_eq = 3 := by simp [hneq, hb0]
      have hz : r.P_b - P_stag = 0 := by
        rw [hPb hb0, hlock hb0]
        ring
      rw [hn3]
      simp only [cnv_sq, List.take, List.map, List.sum_cons, List.sum_nil, hz]
      ring_nf
    · have hn4 : n_eq = 4 := by simp [hneq, hb0]
      rw [hn4]
      simp only [cnv_sq, List.take, List.map]

/-- C6 witness: a concrete iteration-≥2 evaluation (Homann Barker
correction, so `n_eq = 4`) at which `newton_cnv_normalized` applies. -/
theorem newton_cnv_normalized_witness :
    (⟨1190532268818/9409, [1, 4500, -1, -1000000/97], 1/100, 1000, 100,
        5000, 7, 9000, 9500, 20, 21, 1000679/97⟩ : DynJacResult).cnv =
      (fun q => q) (cnv_sq 4 (⟨1190532268818/9409,
        [1, 4500, -1, -1000000/97], 1/100, 1000, 100, 5000, 7, 9000, 9500,
        20, 21, 1000679/97⟩ : DynJacResult).res) / 1 :=
  newton_cnv_normalized (fun q => q) (fun _ _ _ => 3)
    ⟨fun _ _ => 2, fun _ _ => 1, fun _ _ => 1, fun _ _ => 1,
      fun T P => T + P, fun T P => T - P⟩ 1 1 1 1 4
    ⟨5, 10, 0, false, false, 6, 1/1000, 10, 1/100, 300, 20000⟩
    ⟨350, 1/100, 1/100, 1/20, 0, 1, 1⟩
    1000 100 5000 7 7 3 7 1000 1 2 9000 9500 20 21 _
    (by decide) (fun _ => rfl) (by decide)

/-! ## Jacobian matrix (`jacobian_matrix.py`) and linear solve (`system_solve.py`) -/

/-- Embedding of `jacobian_matrix.jacobian_matrix`.  `hf` abstracts
`heat_flux.heat_flux` as a total function of `(P_t, T_t, u)`; enthalpy and
entropy go through the `Mixture` record; the three Barker-pressure
evaluations go through `barker_effect` (its invalid-type exit makes the
result an `Option`).  The returned matrix is the list-of-rows
`jac[0..3][0..3]` exactly as assembled at the end of the source function. -/
def jacobian_matrix (sqrt : ℚ → ℚ) (hf : ℚ → ℚ → ℚ → ℚ) (prb : Probes)
    (stg : Settings) (T T_t P P_t P_b q h h_t s s_t u : ℚ) (mix : Mixture) :
    Option (List (List ℚ)) := do
  let deltaT := T * stg.jac_diff
  let T_star := T + deltaT
  let h_star := enthalpy mix P T_star
  let s_star := entropy mix P T_star
  let P_b_starT ← (barker_effect sqrt prb mix P_t P T_star u).map Prod.fst
  let dh_dt := (h_star - h) / deltaT
  let ds_dt := (s_star - s) / deltaT
  let db_dt := (P_b_starT - P_b) / deltaT
  let deltaU := u * stg.jac_diff
  let u_star := u + deltaU
  let q_starU := hf P_t T_t u_star
  let P_b_starU ← (barker_effect sqrt prb mix P_t P T u_star).map Prod.fst
  let dq_du := (q_starU - q) / deltaU
  let db_du := (P_b_starU - P_b) / deltaU
  let deltaTt := T_t * stg.jac_diff
  let T_t_star := T_t + deltaTt
  let q_starTt := hf P_t T_t_star u
  let h_t_star := enthalpy mix P_t T_t_star
  let s_t_star := entropy mix P_t T_t_star
  let dq_dtt := (q_starTt - q) / deltaTt
  let dht_dtt := (h_t_star - h_t) / deltaTt
  let dst_dtt := (s_t_star - s_t) / deltaTt
  let pt_derivs ←
    if prb.barker_type ≠ 0 then do
      let deltaPt := P_t * stg.jac_diff
      let P_t_star := P_t + deltaPt
      let q_starPt := hf P_t_star T_t u
      let h_t_starP := enthalpy mix P_t_star T_t
      let s_t_starP := entropy mix P_t_star T_t
      let P_b_starP ← (barker_effect sqrt prb mix P_t_star P T u).map Prod.fst
      pure ((q_starPt - q) / deltaPt, (h_t_starP - h_t) / deltaPt,
        (s_t_starP - s_t) / deltaPt, (P_b_starP - P_b) / deltaPt)
    else
      pure ((0 : ℚ), (0 : ℚ), (0 : ℚ), (0 : ℚ))
  let (dq_dpt, dht_dpt, dst_dpt, db_dpt) := pt_derivs
  some [[0, dq_du, dq_dtt, dq_dpt],
        [-dh_dt, -u, dht_dtt, dht_dpt],
        [-ds_dt, 0, dst_dtt, dst_dpt],
        [db_dt, db_du, 0, db_dpt]]

/-- C8: for every input on which `jacobian_matrix` returns, the returned
matrix has the fixed sparsity pattern: the enthalpy-row/velocity-column
entry is exactly `-u`, the entropy-row/velocity-column entry is `0`, and
the Barker-row/total-temperature-column entry is `0`, regardless of the
finite-difference evaluations. -/
theorem jacobian_fixed_entries (sqrt : ℚ → ℚ) (hf : ℚ → ℚ → ℚ → ℚ)
    (prb : Probes) (stg : Settings) (T T_t P P_t P_b q h h_t s s_t u : ℚ)
    (mix : Mixture) (jac : List (List ℚ))
    (hj : jacobian_matrix sqrt hf prb stg T T_t P P_t P_b q h h_t s s_t u
      mix = some jac) :
    (jac.getD 1 []).getD 1 0 = -u ∧ (jac.getD 2 []).getD 1 0 = 0 ∧
      (jac.getD 3 []).getD 2 0 = 0 := by
  unfold jacobian_matrix at hj
  simp only [bind, Option.bind_eq_some, Option.map_eq_some'] at hj
  obtain ⟨pT, ⟨⟨pbT, rT⟩, hbT, hpT⟩, pU, ⟨⟨pbU, rU⟩, hbU, hpU⟩, hj2⟩ := hj
  by_cases hb : prb.barker_type ≠ 0
  · rw [if_pos hb] at hj2
    simp only [bind, pure, Option.bind_eq_some, Option.map_eq_some',
      Option.some_bind, Option.some.injEq] at hj2
    obtain ⟨pP, ⟨⟨pbP, rP⟩, hbP, hpP⟩, hjac⟩ := hj2
    subst hjac
    exact ⟨rfl, rfl, rfl⟩
  · rw [if_neg hb] at hj2
    simp only [bind, pure, Option.some_bind, Option.some.injEq] at hj2
    subst hj2
    exact ⟨rfl, rfl, rfl⟩

/-- C8 witness: a concrete Jacobian evaluation (Homann Barker correction,
`jac_diff = 1/100`, `u = 50`) at which `jacobian_fixed_entries` applies. -/
theorem jacobian_fixed_entries_witness :
    (([[0, 497, 125, 4961], [-96, -50, 99, 3921], [-88, 0, 93, 3679],
        [9903/97, 20006/97, 0, 198157/97]] : List (List ℚ)).getD 1 []).getD
          1 0 = -50 ∧
      (([[0, 497, 125, 4961], [-96, -50, 99, 3921], [-88, 0, 93, 3679],
        [9903/97, 20006/97, 0, 198157/97]] : List (List ℚ)).getD 2 []).getD
          1 0 = 0 ∧
      (([[0, 497, 125, 4961], [-96, -50, 99, 3921], [-88, 0, 93, 3679],
        [9903/97, 20006/97, 0, 198157/97]] : List (List ℚ)).getD 3 []).getD
          2 0 = 0 :=
  jacobian_fixed_entries (fun q => q) (fun a b c => a + b + c)
    ⟨300, 1/2, 1/100, 1/20, 0, 1, 1⟩
    ⟨5, 10, 0, false, false, 6, 1/1000, 10, 1/100, 300, 20000⟩
    100 200 3 5 6 7 8 9 10 11 50
    ⟨fun _ _ => 2, fun _ _ => 1, fun _ _ => 1, fun _ _ => 1,
      fun T P => T + P, fun T P => T - P⟩
    [[0, 497, 125, 4961], [-96, -50, 99, 3921], [-88, 0, 93, 3679],
      [9903/97, 20006/97, 0, 198157/97]]
    (by decide)

/-- Embedding of `system_solve.system_solve`: extract the leading `n × n`
block `AA` of `A` and the leading `n` entries `bb` of `b`, then hand them to
the dense linear solver.  `linsolve` abstracts `numpy.linalg.solve`, the
external LAPACK-backed routine; it receives only `AA` and `bb`. -/
def system_solve (linsolve : List (List ℚ) → List ℚ → List ℚ) (n : ℕ)
    (A : List (List ℚ)) (b : List ℚ) : List ℚ :=
  let AA := (List.range n).map fun i =>
    (List.range n).map fun j => (A.getD i []).getD j 0
  let bb := (List.range n).map fun i => b.getD i 0
  linsolve AA bb

/-- C9: (first half) for `n_eq = 3` the Newton step never references the
Jacobian's 4th row or column: two runs of `system_solve` with `n = 3` whose
inputs agree on the leading `3 × 3` block of `A` and the first 3 entries of
`b` (differing arbitrarily elsewhere, in particular in the 4th row/column
and 4th entry) return the same solution, for every dense solver `linsolve`.
(Second half) for `n_eq = 4` (Barker correction active) all four rows of the
Jacobian are populated: whenever `jacobian_matrix` returns, its 4th row is
`[db_dt, db_du, 0, db_dpt]` with the finite-difference quotients of the
perturbed Barker evaluations, and the 4th column holds the
finite-difference quotients of the `P_t`-perturbed heat-flux, enthalpy and
entropy evaluations. -/
theorem system_solve_jacobian_usage :
    (∀ (linsolve : List (List ℚ) → List ℚ → List ℚ)
        (A A' : List (List ℚ)) (b b' : List ℚ),
      (∀ i j, i < 3 → j < 3 →
        ((A.getD i []).getD j 0 : ℚ) = (A'.getD i []).getD j 0) →
      (∀ i, i < 3 → (b.getD i 0 : ℚ) = b'.getD i 0) →
      system_solve linsolve 3 A b = system_solve linsolve 3 A' b') ∧
    (∀ (sqrt : ℚ → ℚ) (hf : ℚ → ℚ → ℚ → ℚ) (prb : Probes) (stg : Settings)
        (T T_t P P_t P_b q h h_t s s_t u : ℚ) (mix : Mixture)
        (jac : List (List ℚ)),
      prb.barker_type ≠ 0 →
      jacobian_matrix sqrt hf prb stg T T_t P P_t P_b q h h_t s s_t u mix =
        some jac →
      ∃ PbT PbU PbP,
        (barker_effect sqrt prb mix P_t P (T + T * stg.jac_diff) u).map
          Prod.fst = some PbT ∧
        (barker_effect sqrt prb mix P_t P T (u + u * stg.jac_diff)).map
          Prod.fst = some PbU ∧
        (barker_effect sqrt prb mix (P_t + P_t * stg.jac_diff) P T u).map
          Prod.fst = some PbP ∧
        jac.getD 3 [] = [(PbT - P_b) / (T * stg.jac_diff),
          (PbU - P_b) / (u * stg.jac_diff), 0,
          (PbP - P_b) / (P_t * stg.jac_diff)] ∧
        (jac.getD 0 []).getD 3 0 =
          (hf (P_t + P_t * stg.jac_diff) T_t u - q) / (P_t * stg.jac_diff) ∧
        (jac.getD 1 []).getD 3 0 =
          (enthalpy mix (P_t + P_t * stg.jac_diff) T_t - h_t) /
            (P_t * stg.jac_diff) ∧
        (jac.getD 2 []).getD 3 0 =
          (entropy mix (P_t + P_t * stg.jac_diff) T_t - s_t) /
            (P_t * stg.jac_diff)) := by
  constructor
  · intro linsolve A A' b b' hA hb
    unfold system_solve
    have hAA : ((List.range 3).map fun i =>
        (List.range 3).map fun j => ((A.getD i []).getD j 0 : ℚ)) =
        (List.range 3).map fun i =>
          (List.range 3).map fun j => (A'.getD i []).getD j 0 := by
      apply List.map_congr_left
      intro i hi
      apply List.map_congr_left
      intro j hj
      exact hA i j (List.mem_range.mp hi) (List.mem_range.mp hj)
    have hbb : ((List.range 3).map fun i => (b.getD i 0 : ℚ)) =
        (List.range 3).map fun i => b'.getD i 0 := by
      apply List.map_congr_left
      intro i hi
      exact hb i (List.mem_range.mp hi)
    rw [hAA, hbb]
  · intro sqrt hf prb stg T T_t P P_t P_b q h h_t s s_t u mix jac hb hj
    unfold jacobian_matrix at hj
    simp only [bind, Option.bind_eq_some, Option.map_eq_some'] at hj
    obtain ⟨pT, ⟨⟨pbT, rT⟩, hbT, hpT⟩, pU, ⟨⟨pbU, rU⟩, hbU, hpU⟩, hj2⟩ := hj
    rw [if_pos hb] at hj2
    simp only [bind, pure, Option.bind_eq_some, Option.map_eq_some',
      Option.some_bind, Option.some.injEq] at hj2
    obtain ⟨pP, ⟨⟨pbP, rP⟩, hbP, hpP⟩, hjac⟩ := hj2
    subst hjac
    refine ⟨pT, pU, pP, ?_, ?_, ?_, rfl, rfl, rfl, rfl⟩
    · rw [hbT, Option.map_some', hpT]
    · rw [hbU, Option.map_some', hpU]
    · rw [hbP, Option.map_some', hpP]

/-- C9 witness: both halves of `system_solve_jacobian_usage` at concrete
inputs — two 4×4 systems agreeing only on the leading 3×3 block and leading
3 entries of `b`, and a concrete Barker-active Jacobian evaluation. -/
theorem system_solve_jacobian_usage_witness :
    (system_solve (fun _ b => b) 3
        [[1, 2, 3, 4], [5, 6, 7, 8], [9, 10, 11, 12], [13, 14, 15, 16]]
        [1, 2, 3, 4] =
      system_solve (fun _ b => b) 3
        [[1, 2, 3, 99], [5, 6, 7, 98], [9, 10, 11, 97], [96, 95, 94, 93]]
        [1, 2, 3, 77]) ∧
    (∃ PbT PbU PbP,
      (barker_effect (fun q => q) ⟨1, 1/2, 1, 1, 0, 1, 1⟩
        ⟨fun _ _ => 2, fun _ _ => 1, fun _ _ => 1, fun _ _ => 1,
          fun _ _ => 3, fun _ _ => 4⟩ 1 1 (1 + 1 * 1) 1).map Prod.fst =
        some PbT ∧
      (barker_effect (fun q => q) ⟨1, 1/2, 1, 1, 0, 1, 1⟩
        ⟨fun _ _ => 2, fun _ _ => 1, fun _ _ => 1, fun _ _ => 1,
          fun _ _ => 3, fun _ _ => 4⟩ 1 1 1 (1 + 1 * 1)).map Prod.fst =
        some PbU ∧
      (barker_effect (fun q => q) ⟨1, 1/2, 1, 1, 0, 1, 1⟩
        ⟨fun _ _ => 2, fun _ _ => 1, fun _ _ => 1, fun _ _ => 1,
          fun _ _ => 3, fun _ _ => 4⟩ (1 + 1 * 1) 1 1 1).map Prod.fst =
        some PbP ∧
      (([[0, 1, 1, 1], [-2, -1, 2, 2], [-3, 0, 3, 3],
          [200/97, 400/97, 0, 297/97]] : List (List ℚ)).getD 3 []) =
        [(PbT - 1) / (1 * 1), (PbU - 1) / (1 * 1), 0, (PbP - 1) / (1 * 1)] ∧
      ((([[0, 1, 1, 1], [-2, -1, 2, 2], [-3, 0, 3, 3],
          [200/97, 400/97, 0, 297/97]] : List (List ℚ)).getD 0 []).getD 3 0 =
        ((fun _ _ _ => (2:ℚ)) (1 + 1 * 1) 1 1 - 1) / (1 * 1)) ∧
      ((([[0, 1, 1, 1], [-2, -1, 2, 2], [-3, 0, 3, 3],
          [200/97, 400/97, 0, 297/97]] : List (List ℚ)).getD 1 []).getD 3 0 =
        (enthalpy ⟨fun _ _ => 2, fun _ _ => 1, fun _ _ => 1, fun _ _ => 1,
          fun _ _ => 3, fun _ _ => 4⟩ (1 + 1 * 1) 1 - 1) / (1 * 1)) ∧
      ((([[0, 1, 1, 1], [-2, -1, 2, 2], [-3, 0, 3, 3],
          [200/97, 400/97, 0, 297/97]] : List (List ℚ)).getD 2 []).getD 3 0 =
        (entropy ⟨fun _ _ => 2, fun _ _ => 1, fun _ _ => 1, fun _ _ => 1,
          fun _ _ => 3, fun _ _ => 4⟩ (1 + 1 * 1) 1 - 1) / (1 * 1))) :=
  ⟨system_solve_jacobian_usage.1 (fun _ b => b)
      [[1, 2, 3, 4], [5, 6, 7, 8], [9, 10, 11, 12], [13, 14, 15, 16]]
      [[1, 2, 3, 99], [5, 6, 7, 98], [9, 10, 11, 97], [96, 95, 94, 93]]
      [1, 2, 3, 4] [1, 2, 3, 77]
      (fun i j hi hj => by
        interval_cases i <;> interval_cases j <;> rfl)
      (fun i hi => by interval_cases i <;> rfl),
    system_solve_jacobian_usage.2 (fun q => q) (fun _ _ _ => 2)
      ⟨1, 1/2, 1, 1, 0, 1, 1⟩
      ⟨5, 10, 0, false, false, 6, 1/1000, 10, 1, 300, 20000⟩
      1 1 1 1 1 1 1 1 1 1 1
      ⟨fun _ _ => 2, fun _ _ => 1, fun _ _ => 1, fun _ _ => 1,
        fun _ _ => 3, fun _ _ => 4⟩
      [[0, 1, 1, 1], [-2, -1, 2, 2], [-3, 0, 3, 3],
        [200/97, 400/97, 0, 297/97]]
      (by decide) (by decide)⟩

/-- C3 witness: the Homann correction at a concrete state (`ρ = 2`, `μ = 1`,
`R_p = 1`, `u = 2`, so `Re = 8`), via `barker_effect_formulas`. -/
theorem barker_effect_formulas_witness :
    barker_effect (fun q => q) ⟨300, 1, 1, 1, 0, 1, 1⟩
      ⟨fun _ _ => 2, fun _ _ => 1, fun _ _ => 1, fun _ _ => 1,
        fun _ _ => 3, fun _ _ => 4⟩ 7 1 1 2 =
      some (7 + 0.5 * 2 * 2 ^ 2 * (6 / (8 + 0.455 * 8)), 8) := by
  have hw := (barker_effect_formulas (fun q => q) ⟨300, 1, 1, 1, 0, 1, 1⟩
    ⟨fun _ _ => 2, fun _ _ => 1, fun _ _ => 1, fun _ _ => 1,
      fun _ _ => 3, fun _ _ => 4⟩ 7 1 1 2).2.1 rfl
  rw [hw]
  decide

/-! ## Boundary-layer heat flux (`heat_flux/` package, exact law hf_law=0) -/

/-- Hartree starting profile cubic (`heat_flux_hf_law0.f`). -/
def f (eta : ℚ) : ℚ :=
  0.007005 * eta ^ 3 - 0.114439 * eta ^ 2 + 0.598555 * eta

/-- Stretched coordinate (`heat_flux_hf_law0.stretched_eta`). -/
def stretched_eta (eta_new eta_max : ℚ) : ℚ := eta_new / eta_max * 6

/-- Embedding of `heat_flux_hf_law0.reset_vars`: the seeded eta grid `x`,
momentum profile `y` (= F) and energy profile `z` (= g), each of length
`N_p`. -/
def reset_vars (deta T_e T_w : ℚ) (N_p : ℕ) (eta_max : ℚ) :
    List ℚ × List ℚ × List ℚ :=
  ((List.range N_p).map fun i : ℕ => (i : ℚ) * deta,
   (List.range N_p).map fun i : ℕ => f (stretched_eta ((i : ℚ) * deta) eta_max),
   (List.range N_p).map fun i : ℕ =>
     min 1 (f (stretched_eta ((i : ℚ) * deta) eta_max) +
       T_w / T_e * (eta_max - (i : ℚ) * deta) / eta_max))

/-- Cumulative Simpson integral of `continuity.continuity`: `V[0] = 0`, the
fixed 4-point startup value `V[1]`, then the repeated 3-point Simpson step
`V[i] = V[i-2] + (y[i-2] + 4y[i-1] + y[i])·deta/3`. -/
def contiSimpson (deta : ℚ) (y : List ℚ) : ℕ → List ℚ
  | 0 => [0]
  | 1 => [0, (17 * y.getD 0 0 + 42 * y.getD 1 0 - 16 * y.getD 2 0 +
      6 * y.getD 3 0 - y.getD 4 0) * deta / 48]
  | k + 2 =>
      let prev := contiSimpson deta y (k + 1)
      prev ++ [prev.getD k 0 + (y.getD k 0 + 4 * y.getD (k + 1) 0 +
        y.getD (k + 2) 0) * deta / 3]

/-- Embedding of `continuity.continuity`.  The startup formula reads
`y[0]..y[4]`, so Python raises an uncaught `IndexError` whenever
`len(y) < 5`; on longer inputs every access is in range and the function is
total. -/
def continuity (deta : ℚ) (y : List ℚ) : Except PfsErr (List ℚ) :=
  if y.length < 5 then .error .indexError
  else .ok (contiSimpson deta y (y.length - 1))

/-- Embedding of `first_deriv.first_deriv_array` (2nd/4th-order one-sided /
central finite differences; arrays of length ≤ 2 raise). -/
def first_deriv_array (fv : List ℚ) (dx : ℚ) (order : ℕ) :
    Except PfsErr (List ℚ) :=
  let n := fv.length
  if n ≤ 2 then .error .sizeError
  else
    let ordmax := if n = 3 ∨ n = 4 then 2 else 4
    let ord := if order < ordmax then order else ordmax
    if ord = 2 then
      .ok ((List.range n).map fun i =>
        if i = 0 then
          (-3 * fv.getD 0 0 + 4 * fv.getD 1 0 - fv.getD 2 0) / (2 * dx)
        else if i = n - 1 then
          (3 * fv.getD (n-1) 0 - 4 * fv.getD (n-2) 0 + fv.getD (n-3) 0) /
            (2 * dx)
        else (fv.getD (i+1) 0 - fv.getD (i-1) 0) / (2 * dx))
    else if ord = 4 then
      .ok ((List.range n).map fun i =>
        if i = 0 then
          (-25 * fv.getD 0 0 + 48 * fv.getD 1 0 - 36 * fv.getD 2 0 +
            16 * fv.getD 3 0 - 3 * fv.getD 4 0) / (12 * dx)
        else if i = 1 then
          (-3 * fv.getD 0 0 - 10 * fv.getD 1 0 + 18 * fv.getD 2 0 -
            6 * fv.getD 3 0 + fv.getD 4 0) / (12 * dx)
        else if i = n - 1 then
          (25 * fv.getD (n-1) 0 - 48 * fv.getD (n-2) 0 +
            36 * fv.getD (n-3) 0 - 16 * fv.getD (n-4) 0 +
            3 * fv.getD (n-5) 0) / (12 * dx)
        else if i = n - 2 then
          (3 * fv.getD (n-1) 0 + 10 * fv.getD (n-2) 0 -
            18 * fv.getD (n-3) 0 + 6 * fv.getD (n-4) 0 - fv.getD (n-5) 0) /
            (12 * dx)
        else
          (fv.getD (i-2) 0 - 8 * fv.getD (i-1) 0 + 8 * fv.getD (i+1) 0 -
            fv.getD (i+2) 0) / (12 * dx))
    else .error .sizeError

/-- Forward-elimination diagonal of the Thomas algorithm:
`alpha[0] = a[0]`, `alpha[i+1] = a[i+1] - (e[i]/alpha[i])·c[i]`. -/
def fwdElim : ℚ → List ℚ → List ℚ → List ℚ → List ℚ
  | alpha, a1 :: arest, c1 :: crest, e1 :: erest =>
      alpha :: fwdElim (a1 - e1 / alpha * c1) arest crest erest
  | alpha, _, _, _ => [alpha]

/-- Forward substitution of the Thomas algorithm:
`y[0] = d[0]`, `y[i] = d[i] - beta[i-1]·y[i-1]`. -/
def fwdSub : ℚ → List ℚ → List ℚ → List ℚ
  | y0, d1 :: drest, b1 :: brest => y0 :: fwdSub (d1 - b1 * y0) drest brest
  | y0, _, _ => [y0]

/-- Backward substitution of the Thomas algorithm, on reversed lists:
`x[n-1] = y[n-1]/alpha[n-1]`, `x[i] = (y[i] - c[i]·x[i+1])/alpha[i]`. -/
def backSub : ℚ → List ℚ → List ℚ → List ℚ → List ℚ
  | x0, y1 :: yrest, c1 :: crest, a1 :: arest =>
      x0 :: backSub ((y1 - c1 * x0) / a1) yrest crest arest
  | x0, _, _, _ => [x0]

/-- Embedding of `eq_diff_solve.thomas`: tridiagonal solve with diagonal
`a`, upper diagonal `c`, lower diagonal `e`, right-hand side `d`.  The
length checks mirror the source's `len(c) != n-1 or len(e) != n-1 or
len(d) != n` (with Python int arithmetic, so `n = 0` is also refused). -/
def thomas (a c e d : List ℚ) : Except PfsErr (List ℚ) :=
  let n := a.length
  if c.length + 1 ≠ n ∨ e.length + 1 ≠ n ∨ d.length ≠ n then
    .error .sizeError
  else
    let alphas := fwdElim (a.headD 0) a.tail c e
    let betas := e.zipWith (fun ei ai => ei / ai) alphas
    let ys := fwdSub (d.headD 0) d.tail betas
    let yr := ys.reverse
    let ar := alphas.reverse
    .ok (backSub (yr.headD 0 / ar.headD 0) yr.tail c.reverse ar.tail).reverse

/-- Embedding of `eq_diff_solve.solver`: assemble the quasi-linearized
tridiagonal system for the `ns = n-2` interior points, pin the Dirichlet
boundary values, and solve by `thomas`.  The result list is
`f_init :: interior ++ [f_final]`, exactly the effect of the source's slice
assignment `res[1:n-1] = thomas(...)` after `res[0] = f_init` and
`res[n-1] = f_final`.  For `n < 3` the source hits `dd[0]` on an empty
list, an `IndexError`. -/
def solver (a b d : List ℚ) (f_init f_final : ℚ) : Except PfsErr (List ℚ) :=
  let n := a.length
  if b.length ≠ n ∨ d.length ≠ n then .error .sizeError
  else if n < 3 then .error .indexError
  else
    let ns := n - 2
    let coeffs := (List.range ns).map fun k =>
      let i := k + 1
      let mnp1p1 := a.getD (i+1) 0 + 1.5 * b.getD (i+1) 0
      let mnp10 := -2 * (a.getD (i+1) 0 + b.getD (i+1) 0)
      let mnp1m1 := a.getD (i+1) 0 + 0.5 * b.getD (i+1) 0
      let mnp1al := -(6 * a.getD (i+1) 0 + 2 * b.getD (i+1) 0)
      let mnp1be := -(10 * a.getD (i+1) 0 + 2 * b.getD (i+1) 0)
      let mnp1 := a.getD i 0 + 0.5 * b.getD i 0
      let mn0 := -2 * a.getD i 0
      let mnm1 := a.getD i 0 - 0.5 * b.getD i 0
      let mnal := b.getD i 0
      let mnbe := 2 * a.getD i 0
      let mnm1p1 := a.getD (i-1) 0 - 0.5 * b.getD (i-1) 0
      let mnm10 := 2 * (-(a.getD (i-1) 0) + b.getD (i-1) 0)
      let mnm1m1 := a.getD (i-1) 0 - 1.5 * b.getD (i-1) 0
      let mnm1al := 6 * a.getD (i-1) 0 - 2 * b.getD (i-1) 0
      let mnm1be := -10 * a.getD (i-1) 0 + 2 * b.getD (i-1) 0
      let delnp1 := mnal * mnp1be - mnp1al * mnbe
      let deln := mnp1al * mnm1be - mnm1al * mnp1be
      let delnm1 := mnm1al * mnbe - mnal * mnm1be
      (mnm1p1 * delnp1 + mnp1 * deln + mnp1p1 * delnm1,
       mnm10 * delnp1 + mn0 * deln + mnp10 * delnm1,
       mnm1m1 * delnp1 + mnm1 * deln + mnp1m1 * delnm1,
       d.getD (i-1) 0 * delnp1 + d.getD i 0 * deln + d.getD (i+1) 0 * delnm1)
    let aa := coeffs.map fun t => t.1
    let bb := coeffs.map fun t => t.2.1
    let cc := coeffs.map fun t => t.2.2.1
    let dd0 := coeffs.map fun t => t.2.2.2
    let dd1 := dd0.set 0 (dd0.getD 0 0 - cc.getD 0 0 * f_init)
    let dd2 := dd1.set (ns-1) (dd1.getD (ns-1) 0 - aa.getD (ns-1) 0 * f_final)
    let cc2 := cc.drop 1
    let aa2 := aa.take (ns-1)
    (thomas bb aa2 cc2 dd2).map fun interior => f_init :: interior ++ [f_final]

/-- Embedding of `heat_flux_hf_law0.properties_across_BL`, recursing over
the grid indices.  On the first out-of-range profile temperature
(`T ≤ 4` or `T > max_T_relax`; the `np.isnan` test has no counterpart in
exact rational arithmetic) it stops and reports `redo = true` with the
partial lists, exactly like the source's early `return`. -/
def properties_go (T_e P_e mu_e rho_e : ℚ) (z : List ℚ) (mix : Mixture)
    (max_T_relax : ℚ) :
    List ℕ → List ℚ × List ℚ × List ℚ × List ℚ →
    List ℚ × List ℚ × List ℚ × List ℚ × Bool
  | [], (l_0, rr, chi, C_p) => (l_0, rr, chi, C_p, false)
  | i :: rest, (l_0, rr, chi, C_p) =>
      let T := T_e * z.getD i 0
      if T ≤ 4 ∨ max_T_relax < T then (l_0, rr, chi, C_p, true)
      else
        let rho := mix.density T P_e
        let C_p_i := mix.cpMass T P_e
        let mu := mix.viscosity T P_e
        let lambda_eq := mix.thermalCond T P_e
        properties_go T_e P_e mu_e rho_e z mix max_T_relax rest
          (l_0 ++ [rho * mu / (rho_e * mu_e)], rr ++ [rho_e / rho],
           chi ++ [lambda_eq * rho / (rho_e * mu_e)], C_p ++ [C_p_i])

/-- `properties_across_BL(T_e, P_e, mu_e, rho_e, z, N_p, mixture,
max_T_relax)` of the source. -/
def properties_across_BL (T_e P_e mu_e rho_e : ℚ) (z : List ℚ) (N_p : ℕ)
    (mix : Mixture) (max_T_relax : ℚ) :
    List ℚ × List ℚ × List ℚ × List ℚ × Bool :=
  properties_go T_e P_e mu_e rho_e z mix max_T_relax (List.range N_p)
    ([], [], [], [])

/-- Domain-violation handling of the heat-flux loop (`heat_flux`, lines
178-189): on `redo`, raise if a reset already happened in this call,
otherwise reset to the seed profile, recompute the properties, raise if
they still violate, and remember the reset.  `resets` counts performed
resets (an observer added for specification purposes; it changes no
computed value). -/
def propsOrReset (mix : Mixture) (prb : Probes) (stg : Settings)
    (T_e P_e rho_e mu_e deta : ℚ) (y z : List ℚ) (already_reset : Bool)
    (resets : ℕ) :
    Except PfsErr ((List ℚ × List ℚ × List ℚ × List ℚ) ×
      List ℚ × List ℚ × Bool × ℕ) :=
  match properties_across_BL T_e P_e mu_e rho_e z stg.N_p mix
      stg.max_T_relax with
  | (l_0, rr, chi, C_p, redo) =>
    if redo then
      if already_reset then .error .valueError
      else
        let xyz := reset_vars deta T_e prb.T_w stg.N_p stg.eta_max
        match properties_across_BL T_e P_e mu_e rho_e xyz.2.2 stg.N_p mix
            stg.max_T_relax with
        | (l_0r, rrr, chir, C_pr, redor) =>
          if redor then .error .valueError
          else .ok ((l_0r, rrr, chir, C_pr), xyz.2.1, xyz.2.2, true,
            resets + 1)
    else .ok ((l_0, rr, chi, C_p), y, z, already_reset, resets)

/-- One pass of the heat-flux convergence loop up to the new profiles:
continuity integration, momentum equation, energy equation (`heat_flux`,
lines 190-222).  The fixed finite-difference order is
`ProgramConstants.HeatFlux.ORDER = 4`. -/
def hfIterData (mix : Mixture) (prb : Probes) (stg : Settings)
    (T_e P_e rho_e mu_e deta : ℚ) (y z : List ℚ) (already_reset : Bool)
    (resets : ℕ) :
    Except PfsErr (List ℚ × List ℚ × List ℚ × List ℚ × Bool × ℕ) := do
  let pr ← propsOrReset mix prb stg T_e P_e rho_e mu_e deta y z
    already_reset resets
  let (props, y', z', ar', rs') := pr
  let (l_0, rr, chi, C_p) := props
  let aaC := (List.range stg.N_p).map fun i => -(y'.getD i 0)
  let V ← continuity deta aaC
  let dl_0 ← first_deriv_array l_0 deta 4
  let aaM := (List.range stg.N_p).map fun i => l_0.getD i 0 / deta ^ 2
  let bbM := (List.range stg.N_p).map fun i =>
    (dl_0.getD i 0 - V.getD i 0) / deta
  let ddM := (List.range stg.N_p).map fun i =>
    0.5 * ((y'.getD i 0) ^ 2 - rr.getD i 0)
  let new_f ← solver aaM bbM ddM 0 1
  let dchi ← first_deriv_array chi deta 4
  let aaE := (List.range stg.N_p).map fun i =>
    chi.getD i 0 / C_p.getD i 0 / deta ^ 2
  let bbE := (List.range stg.N_p).map fun i =>
    (dchi.getD i 0 / C_p.getD i 0 - V.getD i 0) / deta
  let ddE := (List.range stg.N_p).map fun _ => (0 : ℚ)
  let new_g ← solver aaE bbE ddE (prb.T_w / T_e) 1
  .ok (y', z', new_f, new_g, ar', rs')

/-- State carried by the heat-flux convergence loop.  `y, z` are the
momentum and energy profiles (the eta grid `x` is write-only in the source
and omitted); `stop` and `bad_convergence` are the source's flags; `resets`
is the specification observer of `propsOrReset`. -/
structure BLState where
  y : List ℚ
  z : List ℚ
  already_reset : Bool
  resets : ℕ
  stop : Bool
  bad_convergence : Bool
  deriving DecidableEq, Repr

/-- One full iteration of the heat-flux loop (`heat_flux`, lines 175-241):
the returned Bool is the `break` flag.  On stop-or-cap the profiles are the
current (not blended) ones and `bad_convergence` is set only when the loop
did not converge AND `log_warning_hf` is enabled, exactly as in the source;
otherwise the profiles are relaxed toward the new ones with the fixed
`w = 0.5` blend. -/
def hfIter (mix : Mixture) (prb : Probes) (stg : Settings)
    (T_e P_e rho_e mu_e deta : ℚ) (max_iter iter : ℕ) (s : BLState) :
    Except PfsErr (BLState × Bool) :=
  (hfIterData mix prb stg T_e P_e rho_e mu_e deta s.y s.z s.already_reset
    s.resets).map fun r =>
    match r with
    | (y', z', new_f, new_g, ar', rs') =>
      let stop := decide (∀ i ∈ List.range stg.N_p,
        |new_f.getD i 0 - y'.getD i 0| ≤ stg.hf_conv ∧
        |new_g.getD i 0 - z'.getD i 0| ≤ stg.hf_conv)
      if stop ∨ max_iter ≤ iter then
        (⟨y', z', ar', rs', stop,
          if stop = false ∧ stg.log_warning_hf then true
          else s.bad_convergence⟩, true)
      else
        (⟨y'.zipWith (fun a b => (1 - 0.5) * a + 0.5 * b) new_f,
          z'.zipWith (fun a b => (1 - 0.5) * a + 0.5 * b) new_g,
          ar', rs', stop, s.bad_convergence⟩, false)

/-- The `while iter < max_iter` loop of `heat_flux`.  The fuel argument is
instantiated with `max_iter` itself, which always suffices because the last
iteration breaks on `iter >= max_iter`. -/
def hfLoop (mix : Mixture) (prb : Probes) (stg : Settings)
    (T_e P_e rho_e mu_e deta : ℚ) (max_iter : ℕ) :
    ℕ → ℕ → BLState → Except PfsErr BLState
  | 0, _, s => .ok s
  | fuel + 1, iter, s =>
    match hfIter mix prb stg T_e P_e rho_e mu_e deta max_iter (iter + 1)
        s with
    | .error e => .error e
    | .ok (s', broke) =>
      if broke then .ok s'
      else hfLoop mix prb stg T_e P_e rho_e mu_e deta max_iter fuel
        (iter + 1) s'

/-- Return value of `heat_flux_hf_law0.heat_flux`: the heat flux `q` and
the `bad_convergence` flag, plus the specification observers `stop` (did
the profile iteration converge) and `resets` (domain-violation resets
performed). -/
structure HFResult where
  q : ℚ
  bad_convergence : Bool
  stop : Bool
  resets : ℕ
  deriving DecidableEq, Repr

/-- Embedding of `heat_flux_hf_law0.heat_flux`.  `warm` is the explicit
in-memory form of the `use_prev_ite` temporary-file state: `none` is the
fresh-seed path (`hf_first_comp = 0`), `some (y, z)` the warm-start path
that loads the previously saved profiles.  Saving the converged profile
back to disk is I/O with no effect on the returned values and is not
modelled. -/
def heat_flux_hf_law0 (sqrt : ℚ → ℚ) (mix : Mixture) (prb : Probes)
    (stg : Settings) (P_e T_e u : ℚ) (warm : Option (List ℚ × List ℚ)) :
    Except PfsErr HFResult :=
  let beta := prb.stag_var * u / prb.R_m
  let deta := stg.eta_max / ((stg.N_p : ℚ) - 1)
  let yz : List ℚ × List ℚ :=
    match warm with
    | none => ((reset_vars deta T_e prb.T_w stg.N_p stg.eta_max).2.1,
               (reset_vars deta T_e prb.T_w stg.N_p stg.eta_max).2.2)
    | some p => p
  let rho_e := mix.density T_e P_e
  let mu_e := mix.viscosity T_e P_e
  let rho_w := mix.density prb.T_w P_e
  let lambda_eq_wall := mix.thermalCond prb.T_w P_e
  match hfLoop mix prb stg T_e P_e rho_e mu_e deta stg.max_hf_iter
      stg.max_hf_iter 0 ⟨yz.1, yz.2, false, 0, false, false⟩ with
  | .error e => .error e
  | .ok s =>
    match first_deriv_array s.z deta 4 with
    | .error e => .error e
    | .ok dg_v =>
      let dg := dg_v.getD 0 0
      let q := sqrt (2 / (rho_e * mu_e)) * dg * T_e * rho_w *
        lambda_eq_wall * sqrt beta
      .ok ⟨q, s.bad_convergence, s.stop, s.resets⟩

/-- Helper: `Except.map` returns `.ok` exactly on an `.ok` input. -/
lemma except_map_eq_ok {e a b : Type} (g : a → b) (x : Except e a) (v : b) :
    x.map g = .ok v ↔ ∃ w, x = .ok w ∧ g w = v := by
  cases x <;> simp [Except.map]

/-- Helper: the last entry of a `zipWith` of two equal-length lists is the
combination of the two last entries. -/
lemma getLast?_zipWith (fop : ℚ → ℚ → ℚ) :
    ∀ (l1 l2 : List ℚ) (va vb : ℚ), l1.length = l2.length →
      l1.getLast? = some va → l2.getLast? = some vb →
      (l1.zipWith fop l2).getLast? = some (fop va vb) := by
  intro l1
  induction l1 with
  | nil =>
    intro l2 va vb _ h1 _
    simp at h1
  | cons a as ih =>
    intro l2 va vb hlen h1 h2
    cases l2 with
    | nil => simp at hlen
    | cons b bs =>
      cases as with
      | nil =>
        cases bs with
        | nil =>
          simp only [List.getLast?_singleton, Option.some.injEq] at h1 h2
          simp [h1, h2]
        | cons b2 bs2 => simp at hlen
      | cons a2 as2 =>
        cases bs with
        | nil => simp at hlen
        | cons b2 bs2 =>
          rw [List.getLast?_cons_cons] at h1 h2
          rw [List.zipWith_cons_cons, List.zipWith_cons_cons,
            List.getLast?_cons_cons, ← List.zipWith_cons_cons]
          exact ih (b2 :: bs2) va vb (by simpa using hlen) h1 h2

/-- Helper: the seed arrays of `reset_vars` have the closed forms below at
the first and last grid point. -/
lemma reset_vars_head_last (deta T_e T_w : ℚ) (N_p : ℕ) (eta_max : ℚ)
    (hN : 2 ≤ N_p) :
    (reset_vars deta T_e T_w N_p eta_max).2.1.head? =
      some (f (stretched_eta 0 eta_max)) ∧
    (reset_vars deta T_e T_w N_p eta_max).2.2.head? =
      some (min 1 (f (stretched_eta 0 eta_max) +
        T_w / T_e * (eta_max - 0) / eta_max)) ∧
    (reset_vars deta T_e T_w N_p eta_max).2.1.getLast? =
      some (f (stretched_eta (((N_p : ℚ) - 1) * deta) eta_max)) ∧
    (reset_vars deta T_e T_w N_p eta_max).2.2.getLast? =
      some (min 1 (f (stretched_eta (((N_p : ℚ) - 1) * deta) eta_max) +
        T_w / T_e * (eta_max - ((N_p : ℚ) - 1) * deta) / eta_max)) := by
  obtain ⟨k, rfl⟩ : ∃ k, N_p = k + 1 := ⟨N_p - 1, by omega⟩
  unfold reset_vars
  refine ⟨?_, ?_, ?_, ?_⟩
  · rw [List.head?_map, List.range_succ_eq_map]
    simp
  · rw [List.head?_map, List.range_succ_eq_map]
    simp
  · rw [List.getLast?_map, List.range_succ, List.getLast?_concat]
    push_cast
    simp [add_sub_cancel_right]
  · rw [List.getLast?_map, List.range_succ, List.getLast?_concat]
    push_cast
    simp [add_sub_cancel_right]

/-- C4 (amended): the boundary conditions are algebraic in the tridiagonal
solver (every `solver` output has `res[0] = f_init` and
`res[N_p-1] = f_final` exactly), and the left boundary values `F[0] = 0`,
`g[0] = T_w/T_e` hold at the seed and are preserved by the fixed-0.5
relaxation blend; but the right boundary values of the SEED are the Hartree
cubic at the stretched coordinate 6, `F[N_p-1] = g[N_p-1] = f(6) =
0.984606 ≠ 1`, and every relaxation blend of a profile with last entry `va`
against a solver profile with last entry `1` ends at `(va + 1)/2`, so the
blended iterates never attain `F[N_p-1] = 1` exactly either. -/
theorem boundary_conditions_amended (deta T_e T_w eta_max : ℚ) (N_p : ℕ)
    (hN : 2 ≤ N_p) (hdeta : deta = eta_max / ((N_p : ℚ) - 1))
    (hTe : 0 < T_e) (hTw : T_w ≤ T_e) (hem : eta_max ≠ 0) :
    ((reset_vars deta T_e T_w N_p eta_max).2.1.head? = some 0 ∧
     (reset_vars deta T_e T_w N_p eta_max).2.2.head? = some (T_w / T_e)) ∧
    ((reset_vars deta T_e T_w N_p eta_max).2.1.getLast? = some (f 6) ∧
     (reset_vars deta T_e T_w N_p eta_max).2.2.getLast? = some (f 6) ∧
     f 6 = 492303/500000 ∧ f 6 ≠ 1) ∧
    (∀ (a b d : List ℚ) (f_init f_final : ℚ) (out : List ℚ),
      solver a b d f_init f_final = .ok out →
      out.head? = some f_init ∧ out.getLast? = some f_final) ∧
    (∀ (yold ynew : List ℚ) (v va vb : ℚ),
      (yold.head? = some v → ynew.head? = some v →
        (yold.zipWith (fun x w => (1 - 0.5) * x + 0.5 * w) ynew).head? =
          some v) ∧
      (yold.length = ynew.length → yold.getLast? = some va →
        ynew.getLast? = some vb →
        (yold.zipWith (fun x w => (1 - 0.5) * x + 0.5 * w) ynew).getLast? =
          some ((1 - 0.5) * va + 0.5 * vb))) := by
  have hNQ : ((N_p : ℚ) - 1) ≠ 0 := by
    have : (2 : ℚ) ≤ (N_p : ℚ) := by exact_mod_cast hN
    intro hc
    nlinarith
  have hlast : ((N_p : ℚ) - 1) * deta = eta_max := by
    rw [hdeta]
    field_simp
  obtain ⟨hy0, hz0, hyL, hzL⟩ :=
    reset_vars_head_last deta T_e T_w N_p eta_max hN
  refine ⟨⟨?_, ?_⟩, ⟨?_, ?_, ?_, ?_⟩, ?_, ?_⟩
  · rw [hy0]
    norm_num [f, stretched_eta]
  · rw [hz0]
    have h1 : stretched_eta 0 eta_max = 0 := by
      simp [stretched_eta]
    have h2 : T_w / T_e * (eta_max - 0) / eta_max = T_w / T_e := by
      field_simp
      ring
    rw [h1, h2]
    have hf0 : f 0 = 0 := by norm_num [f]
    rw [hf0, zero_add, min_eq_right (div_le_one_of_le₀ hTw hTe.le)]
  · rw [hyL, hlast]
    have : stretched_eta eta_max eta_max = 6 := by
      unfold stretched_eta
      field_simp
    rw [this]
  · rw [hzL, hlast]
    have h6 : stretched_eta eta_max eta_max = 6 := by
      unfold stretched_eta
      field_simp
    rw [h6, sub_self, mul_zero, zero_div, add_zero]
    rw [min_eq_right (by norm_num [f])]
  · norm_num [f]
  · norm_num [f]
  · intro a b d f_init f_final out hs
    unfold solver at hs
    dsimp only at hs
    split at hs
    · exact absurd hs (by simp)
    · split at hs
      · exact absurd hs (by simp)
      · rw [except_map_eq_ok] at hs
        obtain ⟨interior, _, hout⟩ := hs
        subst hout
        constructor
        · rfl
        · show (f_init :: (interior ++ [f_final])).getLast? = some f_final
          rw [← List.cons_append, List.getLast?_concat]
  · intro yold ynew v va vb
    constructor
    · intro h1 h2
      cases yold with
      | nil => simp at h1
      | cons a as =>
        cases ynew with
        | nil => simp at h2
        | cons b bs =>
          simp only [List.head?_cons, Option.some.injEq] at h1 h2
          rw [List.zipWith_cons_cons, List.head?_cons, h1, h2]
          congr 1
          ring
    · intro hlen h1 h2
      exact getLast?_zipWith _ yold ynew va vb hlen h1 h2

/-- C4 counterexample: the claim as stated is false at the seeded profile:
with `N_p = 5`, `eta_max = 6`, `deta = 3/2`, `T_e = 2000`, `T_w = 300`,
the seed has `F[N_p-1] = 492303/500000 = 0.984606`, not `1`. -/
theorem hartree_seed_endpoint_cex :
    (reset_vars (3/2) 2000 300 5 6).2.1.getLast? = some (492303/500000) ∧
      (492303/500000 : ℚ) ≠ 1 := by
  constructor
  · decide
  · norm_num

/-- C4 witness: `boundary_conditions_amended` at the concrete configuration
`N_p = 5`, `eta_max = 6`, `deta = 3/2`, `T_e = 2000`, `T_w = 300`. -/
theorem boundary_conditions_amended_witness :
    (((reset_vars (3/2) 2000 300 5 6).2.1.head? = some 0 ∧
      (reset_vars (3/2) 2000 300 5 6).2.2.head? = some (300 / 2000)) ∧
    ((reset_vars (3/2) 2000 300 5 6).2.1.getLast? = some (f 6) ∧
     (reset_vars (3/2) 2000 300 5 6).2.2.getLast? = some (f 6) ∧
     f 6 = 492303/500000 ∧ f 6 ≠ 1) ∧
    (∀ (a b d : List ℚ) (f_init f_final : ℚ) (out : List ℚ),
      solver a b d f_init f_final = .ok out →
      out.head? = some f_init ∧ out.getLast? = some f_final) ∧
    (∀ (yold ynew : List ℚ) (v va vb : ℚ),
      (yold.head? = some v → ynew.head? = some v →
        (yold.zipWith (fun x w => (1 - 0.5) * x + 0.5 * w) ynew).head? =
          some v) ∧
      (yold.length = ynew.length → yold.getLast? = some va →
        ynew.getLast? = some vb →
        (yold.zipWith (fun x w => (1 - 0.5) * x + 0.5 * w) ynew).getLast? =
          some ((1 - 0.5) * va + 0.5 * vb)))) :=
  boundary_conditions_amended (3/2) 2000 300 6 5 (by norm_num)
    (by norm_num) (by norm_num) (by norm_num) (by norm_num)

/-- Helper: `Except` bind returns `.ok` exactly through an `.ok`. -/
lemma except_bind_eq_ok {e a b : Type} (x : Except e a) (g : a → Except e b)
    (v : b) : x.bind g = .ok v ↔ ∃ w, x = .ok w ∧ g w = .ok v := by
  cases x <;> simp [Except.bind]

/-- Helper: the same for the `>>=` spelling produced by `do` notation. -/
lemma except_bindOp_eq_ok {e a b : Type} (x : Except e a)
    (g : a → Except e b) (v : b) :
    (x >>= g) = .ok v ↔ ∃ w, x = .ok w ∧ g w = .ok v := by
  cases x <;> simp [Bind.bind, Except.bind]

/-- Helper: `do`-bind reduction on an `.ok`. -/
lemma except_ok_bind {e a b : Type} (w : a) (g : a → Except e b) :
    ((Except.ok w : Except e a) >>= g) = g w := rfl

/-- Helper: `do`-bind reduction on an `.error`. -/
lemma except_error_bind {e a b : Type} (err : e) (g : a → Except e b) :
    ((Except.error err : Except e a) >>= g) = Except.error err := rfl

/-- Helper: whenever the domain-violation handler returns, it either kept
the reset bookkeeping unchanged (no violation) or performed the one allowed
reset: `already_reset` was false, is now true, and the reset count grew by
one. -/
lemma propsOrReset_spec (mix : Mixture) (prb : Probes) (stg : Settings)
    (T_e P_e rho_e mu_e deta : ℚ) (y z : List ℚ) (ar : Bool) (rs : ℕ)
    (props : List ℚ × List ℚ × List ℚ × List ℚ) (y' z' : List ℚ)
    (ar' : Bool) (rs' : ℕ)
    (h : propsOrReset mix prb stg T_e P_e rho_e mu_e deta y z ar rs =
      .ok (props, y', z', ar', rs')) :
    (ar' = ar ∧ rs' = rs) ∨ (ar = false ∧ ar' = true ∧ rs' = rs + 1) := by
  unfold propsOrReset at h
  rcases hp : properties_across_BL T_e P_e mu_e rho_e z stg.N_p mix
      stg.max_T_relax with ⟨l_0, rr, chi, C_p, redo⟩
  rw [hp] at h
  dsimp only at h
  split at h
  · split at h
    · exact absurd h (by simp)
    · rcases hp2 : properties_across_BL T_e P_e mu_e rho_e
          (reset_vars deta T_e prb.T_w stg.N_p stg.eta_max).2.2 stg.N_p mix
          stg.max_T_relax with ⟨l_0r, rrr, chir, C_pr, redor⟩
      rw [hp2] at h
      dsimp only at h
      split at h
      · exact absurd h (by simp)
      · simp only [Except.ok.injEq, Prod.mk.injEq] at h
        right
        rename_i har _
        exact ⟨by simpa using har, h.2.2.2.1.symm, h.2.2.2.2.symm⟩
  · simp only [Except.ok.injEq, Prod.mk.injEq] at h
    exact Or.inl ⟨h.2.2.2.1.symm, h.2.2.2.2.symm⟩

/-- Helper: the reset bookkeeping of one full data pass. -/
lemma hfIterData_resets (mix : Mixture) (prb : Probes) (stg : Settings)
    (T_e P_e rho_e mu_e deta : ℚ) (y z : List ℚ) (ar : Bool) (rs : ℕ)
    (y' z' nf ng : List ℚ) (ar' : Bool) (rs' : ℕ)
    (h : hfIterData mix prb stg T_e P_e rho_e mu_e deta y z ar rs =
      .ok (y', z', nf, ng, ar', rs')) :
    (ar' = ar ∧ rs' = rs) ∨ (ar = false ∧ ar' = true ∧ rs' = rs + 1) := by
  unfold hfIterData at h
  rcases hpr : propsOrReset mix prb stg T_e P_e rho_e mu_e deta y z ar rs
    with e | ⟨props, y1, z1, ar1, rs1⟩
  · rw [hpr] at h
    rw [except_error_bind] at h
    exact absurd h (by simp)
  · rw [hpr] at h
    rw [except_ok_bind] at h
    dsimp only at h
    simp only [except_bindOp_eq_ok, except_bind_eq_ok] at h
    obtain ⟨V, hV, h⟩ := h
    obtain ⟨dl0, hdl0, h⟩ := h
    obtain ⟨nf1, hnf1, h⟩ := h
    obtain ⟨dchi, hdchi, h⟩ := h
    obtain ⟨ng1, hng1, h⟩ := h
    simp only [Except.ok.injEq, Prod.mk.injEq] at h
    obtain ⟨_, _, _, _, har, hrs⟩ := h
    subst har
    subst hrs
    exact propsOrReset_spec mix prb stg T_e P_e rho_e mu_e deta y z ar rs
      props y1 z1 ar1 rs1 hpr

/-- Helper: the flag and bookkeeping behavior of one loop iteration. -/
lemma hfIter_spec (mix : Mixture) (prb : Probes) (stg : Settings)
    (T_e P_e rho_e mu_e deta : ℚ) (max_iter iter : ℕ) (s s' : BLState)
    (broke : Bool)
    (h : hfIter mix prb stg T_e P_e rho_e mu_e deta max_iter iter s =
      .ok (s', broke)) :
    ((s'.already_reset = s.already_reset ∧ s'.resets = s.resets) ∨
      (s.already_reset = false ∧ s'.already_reset = true ∧
        s'.resets = s.resets + 1)) ∧
    (broke = true → s'.bad_convergence =
      (if s'.stop = false ∧ stg.log_warning_hf then true
       else s.bad_convergence)) ∧
    (broke = false → s'.bad_convergence = s.bad_convergence ∧
      s'.stop = false ∧ iter < max_iter) := by
  unfold hfIter at h
  rw [except_map_eq_ok] at h
  obtain ⟨⟨y', z', nf, ng, ar', rs'⟩, hd, hfn⟩ := h
  have hres := hfIterData_resets mix prb stg T_e P_e rho_e mu_e deta s.y s.z
    s.already_reset s.resets y' z' nf ng ar' rs' hd
  dsimp only at hfn
  split at hfn
  · rename_i hcond
    simp only [Prod.mk.injEq] at hfn
    obtain ⟨hs', hb⟩ := hfn
    subst hs'
    refine ⟨hres, fun _ => rfl, fun hb0 => absurd hb (by simp [hb0])⟩
  · rename_i hcond
    simp only [Prod.mk.injEq] at hfn
    obtain ⟨hs', hb⟩ := hfn
    subst hs'
    push_neg at hcond
    refine ⟨hres, fun hb1 => absurd hb (by simp [hb1]), fun _ => ?_⟩
    refine ⟨rfl, ?_, by omega⟩
    simp only [Bool.not_eq_true] at hcond
    exact hcond.1

/-- Helper: through the whole convergence loop, `bad_convergence` ends up
`log_warning_hf && not stop`: it is set exactly on the non-converged exit
and only when logging is enabled. -/
lemma hfLoop_bad_flag (mix : Mixture) (prb : Probes) (stg : Settings)
    (T_e P_e rho_e mu_e deta : ℚ) (max_iter : ℕ) :
    ∀ (fuel iter : ℕ) (s s' : BLState), s.bad_convergence = false →
      iter + fuel = max_iter → 1 ≤ fuel →
      hfLoop mix prb stg T_e P_e rho_e mu_e deta max_iter fuel iter s =
        .ok s' →
      s'.bad_convergence = (stg.log_warning_hf && !s'.stop) := by
  intro fuel
  induction fuel with
  | zero =>
    intro iter s s' _ _ hge
    omega
  | succ k ih =>
    intro iter s s' hbad hsum _ h
    rw [hfLoop] at h
    rcases hit : hfIter mix prb stg T_e P_e rho_e mu_e deta max_iter
        (iter + 1) s with e | ⟨s1, broke⟩
    · rw [hit] at h
      exact absurd h (by simp)
    · rw [hit] at h
      dsimp only at h
      obtain ⟨hres, hbT, hbF⟩ := hfIter_spec mix prb stg T_e P_e rho_e mu_e
        deta max_iter (iter + 1) s s1 broke hit
      cases broke with
      | true =>
        rw [if_pos rfl] at h
        simp only [Except.ok.injEq] at h
        rw [← h, hbT rfl, hbad]
        rcases hstop : s1.stop with _ | _ <;>
          rcases hlog : stg.log_warning_hf with _ | _ <;> simp [hstop, hlog]
      | false =>
        rw [if_neg (by simp)] at h
        obtain ⟨hb1, _, hlt⟩ := hbF rfl
        refine ih (iter + 1) s1 s' (hb1.trans hbad) (by omega) (by omega) h

/-- Helper: the reset invariant through the whole convergence loop: at most
one reset, and none while `already_reset` is still false. -/
lemma hfLoop_resets (mix : Mixture) (prb : Probes) (stg : Settings)
    (T_e P_e rho_e mu_e deta : ℚ) (max_iter : ℕ) :
    ∀ (fuel iter : ℕ) (s s' : BLState),
      (s.already_reset = false → s.resets = 0) → s.resets ≤ 1 →
      hfLoop mix prb stg T_e P_e rho_e mu_e deta max_iter fuel iter s =
        .ok s' →
      s'.resets ≤ 1 := by
  intro fuel
  induction fuel with
  | zero =>
    intro iter s s' h0 h1 h
    rw [hfLoop] at h
    simp only [Except.ok.injEq] at h
    rw [← h]
    exact h1
  | succ k ih =>
    intro iter s s' h0 h1 h
    rw [hfLoop] at h
    rcases hit : hfIter mix prb stg T_e P_e rho_e mu_e deta max_iter
        (iter + 1) s with e | ⟨s1, broke⟩
    · rw [hit] at h
      exact absurd h (by simp)
    · rw [hit] at h
      dsimp only at h
      obtain ⟨hres, _, _⟩ := hfIter_spec mix prb stg T_e P_e rho_e mu_e
        deta max_iter (iter + 1) s s1 broke hit
      have h0' : s1.already_reset = false → s1.resets = 0 := by
        rcases hres with ⟨ha, hr⟩ | ⟨ha, ha', hr⟩
        · intro hf
          rw [hr]
          exact h0 (ha ▸ hf)
        · intro hf
          rw [ha'] at hf
          exact absurd hf (by simp)
      have h1' : s1.resets ≤ 1 := by
        rcases hres with ⟨_, hr⟩ | ⟨ha, _, hr⟩
        · rw [hr]; exact h1
        · rw [hr, h0 ha]
      cases broke with
      | true =>
        rw [if_pos rfl] at h
        simp only [Except.ok.injEq] at h
        rw [← h]
        exact h1'
      | false =>
        rw [if_neg (by simp)] at h
        exact ih (iter + 1) s1 s' h0' h1' h

/-- C5 (amended): whenever the exact-law heat-flux evaluation returns (the
loop ran at least once), it returns the flux of the last iterate rather
than raising, and the did-not-converge flag equals
`log_warning_hf AND (not converged)`: in particular the flag is set on a
cap-exhausted non-converged run only when the `log_warning_hf` setting is
enabled, not for every setting configuration. -/
theorem hf_bad_convergence_flag (sqrt : ℚ → ℚ) (mix : Mixture)
    (prb : Probes) (stg : Settings) (P_e T_e u : ℚ)
    (warm : Option (List ℚ × List ℚ)) (r : HFResult)
    (hmax : 1 ≤ stg.max_hf_iter)
    (h : heat_flux_hf_law0 sqrt mix prb stg P_e T_e u warm = .ok r) :
    r.bad_convergence = (stg.log_warning_hf && !r.stop) := by
  unfold heat_flux_hf_law0 at h
  dsimp only at h
  split at h
  · exact absurd h (by simp)
  · rename_i s hl
    split at h
    · exact absurd h (by simp)
    · rename_i dg_v hd
      simp only [Except.ok.injEq] at h
      have hflag := hfLoop_bad_flag mix prb stg T_e P_e _ _ _
        stg.max_hf_iter stg.max_hf_iter 0 _ s rfl (by omega) hmax hl
      rw [← h]
      exact hflag

/-- C7 (amended): within one heat-flux evaluation (one call), a domain
violation is recovered by at most one reset to the seed profile — whenever
the call returns, at most one reset happened; a second violation inside
the same call raises `ValueError` (the `.error .valueError` branches of
`propsOrReset`).  The reset bookkeeping is per call, not per case: each
call of the same case starts over with `already_reset = false`. -/
theorem hf_reset_at_most_once_per_call (sqrt : ℚ → ℚ) (mix : Mixture)
    (prb : Probes) (stg : Settings) (P_e T_e u : ℚ)
    (warm : Option (List ℚ × List ℚ)) (r : HFResult)
    (h : heat_flux_hf_law0 sqrt mix prb stg P_e T_e u warm = .ok r) :
    r.resets ≤ 1 := by
  unfold heat_flux_hf_law0 at h
  dsimp only at h
  split at h
  · exact absurd h (by simp)
  · rename_i s hl
    split at h
    · exact absurd h (by simp)
    · rename_i dg_v hd
      simp only [Except.ok.injEq] at h
      have hres := hfLoop_resets mix prb stg T_e P_e _ _ _
        stg.max_hf_iter stg.max_hf_iter 0 _ s (fun _ => rfl)
        (by exact Nat.zero_le 1) hl
      rw [← h]
      exact hres

/-- C5 counterexample: a cap-exhausted, non-converged heat-flux evaluation
(`max_hf_iter = 1`, `hf_conv = 0`) with `log_warning_hf` disabled returns
normally with `bad_convergence = false`, although the claim requires the
flag to be set for every setting configuration.  (`stop = false` records
that the maximum pointwise profile change had not fallen below the
tolerance.) -/
theorem hf_flag_not_set_without_log_cex :
    ((heat_flux_hf_law0 (fun q => q)
        ⟨fun _ _ => 1, fun _ _ => 1, fun _ _ => 1, fun _ _ => 1,
          fun _ _ => 1, fun _ _ => 1⟩
        ⟨300, 1/100, 1/100, 1/20, 0, 0, 1⟩
        ⟨5, 1, 0, false, false, 6, 1/1000, 10, 1/100, 0, 5000⟩
        1000 2000 100 none).map
      fun (r : HFResult) => (r.stop, r.bad_convergence)) =
      .ok (false, false) := by
  decide

/-- C5 witness: the same non-converged configuration with
`log_warning_hf` enabled, through `hf_bad_convergence_flag`. -/
theorem hf_bad_convergence_flag_witness :
    (⟨211350800/9, true, false, 0⟩ : HFResult).bad_convergence =
      ((⟨5, 1, 0, false, true, 6, 1/1000, 10, 1/100, 0, 5000⟩ :
        Settings).log_warning_hf &&
       !(⟨211350800/9, true, false, 0⟩ : HFResult).stop) :=
  hf_bad_convergence_flag (fun q => q)
    ⟨fun _ _ => 1, fun _ _ => 1, fun _ _ => 1, fun _ _ => 1,
      fun _ _ => 1, fun _ _ => 1⟩
    ⟨300, 1/100, 1/100, 1/20, 0, 0, 1⟩
    ⟨5, 1, 0, false, true, 6, 1/1000, 10, 1/100, 0, 5000⟩
    1000 2000 100 none ⟨211350800/9, true, false, 0⟩
    (by norm_num) (by decide)

/-- C7 counterexample: the claim's "exactly once per case" scoping is
false.  Two successive heat-flux evaluations of the same case (two Newton
iterations, differing only in the velocity) each hit a domain violation
(the blended profile's temperature leaves the admissible range under this
provider), each recover by one reset, and both return normally — so the
case recovers from two domain violations, and the second is not a hard
failure. -/
theorem hf_reset_twice_per_case_cex :
    ((heat_flux_hf_law0 (fun q => q)
        ⟨fun _ _ => 1, fun _ _ => 1, fun _ _ => 1,
          fun T _ => if T < 500 then 1 else -1, fun _ _ => 1, fun _ _ => 1⟩
        ⟨300, 1/100, 1/100, 1/20, 0, 0, 1⟩
        ⟨5, 4, 0, false, false, 6, 1/1000, 10, 1/100, 0, 5000⟩
        1000 2000 100 none).map
      fun (r : HFResult) => r.resets) = .ok 1 ∧
    ((heat_flux_hf_law0 (fun q => q)
        ⟨fun _ _ => 1, fun _ _ => 1, fun _ _ => 1,
          fun T _ => if T < 500 then 1 else -1, fun _ _ => 1, fun _ _ => 1⟩
        ⟨300, 1/100, 1/100, 1/20, 0, 0, 1⟩
        ⟨5, 4, 0, false, false, 6, 1/1000, 10, 1/100, 0, 5000⟩
        1000 2000 110 none).map
      fun (r : HFResult) => r.resets) = .ok 1 := by
  constructor
  · decide
  · decide

/-- C7 witness: a concrete evaluation that hits one domain violation,
recovers by a single reset (`resets = 1`) and returns, through
`hf_reset_at_most_once_per_call`. -/
theorem hf_reset_at_most_once_per_call_witness :
    (⟨-838792165072452463973187967389574794540477391656004249214402641667706542590
        / 28253968170773276602056178349575789475070795673012953611249447960757,
      false, false, 1⟩ : HFResult).resets ≤ 1 :=
  hf_reset_at_most_once_per_call (fun q => q)
    ⟨fun _ _ => 1, fun _ _ => 1, fun _ _ => 1,
      fun T _ => if T < 500 then 1 else -1, fun _ _ => 1, fun _ _ => 1⟩
    ⟨300, 1/100, 1/100, 1/20, 0, 0, 1⟩
    ⟨5, 4, 0, false, false, 6, 1/1000, 10, 1/100, 0, 5000⟩
    1000 2000 105 none
    ⟨-838792165072452463973187967389574794540477391656004249214402641667706542590
        / 28253968170773276602056178349575789475070795673012953611249447960757,
      false, false, 1⟩
    (by decide)

/-- C10: the continuity integration's startup formula reads `y[0]..y[4]`,
so `continuity` is total exactly on inputs of length at least 5 (first
conjunct, an iff), and consequently every exact-law heat-flux evaluation
with `N_p < 5` whose property pass on the seed profile succeeds (no prior
domain violation) raises the uncaught `IndexError` from `continuity`
(second conjunct); the settings layer only requires `N_p` positive. -/
theorem continuity_startup_domain :
    (∀ (deta : ℚ) (y : List ℚ),
      (∃ V, continuity deta y = .ok V) ↔ 5 ≤ y.length) ∧
    (∀ (sqrt : ℚ → ℚ) (mix : Mixture) (prb : Probes) (stg : Settings)
        (P_e T_e u : ℚ),
      1 ≤ stg.max_hf_iter → stg.N_p < 5 →
      (properties_across_BL T_e P_e (mix.viscosity T_e P_e)
        (mix.density T_e P_e)
        (reset_vars (stg.eta_max / ((stg.N_p : ℚ) - 1)) T_e prb.T_w stg.N_p
          stg.eta_max).2.2 stg.N_p mix stg.max_T_relax).2.2.2.2 = false →
      heat_flux_hf_law0 sqrt mix prb stg P_e T_e u none =
        .error .indexError) := by
  constructor
  · intro deta y
    unfold continuity
    split
    · rename_i hlen
      simp only [iff_iff_implies_and_implies]
      constructor
      · rintro ⟨V, hV⟩
        exact absurd hV (by simp)
      · intro hge
        omega
    · rename_i hlen
      push_neg at hlen
      simp only [Except.ok.injEq]
      exact ⟨fun _ => hlen, fun _ => ⟨_, rfl⟩⟩
  · intro sqrt mix prb stg P_e T_e u hmax hN5 hprops
    obtain ⟨k, hk⟩ : ∃ k, stg.max_hf_iter = k + 1 := ⟨stg.max_hf_iter - 1,
      by omega⟩
    rcases hp : properties_across_BL T_e P_e (mix.viscosity T_e P_e)
        (mix.density T_e P_e)
        (reset_vars (stg.eta_max / ((stg.N_p : ℚ) - 1)) T_e prb.T_w stg.N_p
          stg.eta_max).2.2 stg.N_p mix stg.max_T_relax
      with ⟨l0, rr0, chi0, Cp0, redo⟩
    rw [hp] at hprops
    dsimp only at hprops
    subst hprops
    have hpor : propsOrReset mix prb stg T_e P_e (mix.density T_e P_e)
        (mix.viscosity T_e P_e) (stg.eta_max / ((stg.N_p : ℚ) - 1))
        (reset_vars (stg.eta_max / ((stg.N_p : ℚ) - 1)) T_e prb.T_w stg.N_p
          stg.eta_max).2.1
        (reset_vars (stg.eta_max / ((stg.N_p : ℚ) - 1)) T_e prb.T_w stg.N_p
          stg.eta_max).2.2 false 0 =
        .ok ((l0, rr0, chi0, Cp0),
          (reset_vars (stg.eta_max / ((stg.N_p : ℚ) - 1)) T_e prb.T_w
            stg.N_p stg.eta_max).2.1,
          (reset_vars (stg.eta_max / ((stg.N_p : ℚ) - 1)) T_e prb.T_w
            stg.N_p stg.eta_max).2.2, false, 0) := by
      unfold propsOrReset
      rw [hp]
      dsimp only
      rw [if_neg (by simp)]
    have hiter : hfIterData mix prb stg T_e P_e (mix.density T_e P_e)
        (mix.viscosity T_e P_e) (stg.eta_max / ((stg.N_p : ℚ) - 1))
        (reset_vars (stg.eta_max / ((stg.N_p : ℚ) - 1)) T_e prb.T_w stg.N_p
          stg.eta_max).2.1
        (reset_vars (stg.eta_max / ((stg.N_p : ℚ) - 1)) T_e prb.T_w stg.N_p
          stg.eta_max).2.2 false 0 = .error .indexError := by
      unfold hfIterData
      rw [hpor, except_ok_bind]
      dsimp only
      have hcont : continuity (stg.eta_max / ((stg.N_p : ℚ) - 1))
          ((List.range stg.N_p).map fun i =>
            -((reset_vars (stg.eta_max / ((stg.N_p : ℚ) - 1)) T_e prb.T_w
              stg.N_p stg.eta_max).2.1.getD i 0)) = .error .indexError := by
        unfold continuity
        rw [if_pos (by simpa using hN5)]
      rw [hcont, except_error_bind]
    unfold heat_flux_hf_law0
    dsimp only
    rw [hk]
    rw [hfLoop]
    unfold hfIter
    dsimp only
    rw [hiter]
    rfl

/-- Witness for C10: with `N_p = 3` (only two grid points fewer than five
are needed) and an otherwise benign configuration whose seed profile
passes the property checks, the exact-law heat-flux evaluation fails with
`IndexError`. -/
theorem continuity_startup_domain_witness :
    heat_flux_hf_law0 (fun q => q)
      ⟨fun _ _ => 1, fun _ _ => 1, fun _ _ => 1, fun _ _ => 1,
        fun _ _ => 1, fun _ _ => 1⟩
      ⟨300, 1/100, 1/100, 1/20, 0, 0, 1⟩
      ⟨3, 1, 0, false, false, 6, 1/1000, 10, 1/100, 0, 5000⟩
      1000 2000 100 none = .error .indexError :=
  continuity_startup_domain.2 (fun q => q)
    ⟨fun _ _ => 1, fun _ _ => 1, fun _ _ => 1, fun _ _ => 1,
      fun _ _ => 1, fun _ _ => 1⟩
    ⟨300, 1/100, 1/100, 1/20, 0, 0, 1⟩
    ⟨3, 1, 0, false, false, 6, 1/1000, 10, 1/100, 0, 5000⟩
    1000 2000 100 (by decide) (by decide) (by decide)
